import Mathlib

/-!
# Verification of the TDS tower-defense simulation core

Shallow embedding of the simulation core of `src/TDS.py` (single source file).

Modelling conventions:

* Python `float` arithmetic is embedded as exact rational arithmetic (`ℚ`).
  Every `int(...)` truncation appearing in the source was checked against
  CPython double semantics on the concrete operand values occurring in the
  program (tower stat tables, upgrade-cost chains, wave-count scaling);
  the exact-rational floor agrees with the float result on all of them.
* Randomness (`random.random()`, `random.shuffle`, `random.choice`) is
  embedded as explicit oracle parameters (booleans / permutations).
* Geometry that lives in the `arcade` library (sprite hit-box overlap
  tests) and the float `sqrt`-normalised motion steps of enemies and
  projectiles are embedded as oracle parameters as well: no verified
  property depends on the exact travelled offset, and `sqrt`-based
  comparisons (`sqrt d2 < r`) are embedded by the equivalent squared
  comparisons (`d2 < r^2`, both sides nonnegative).
* Presentation-side effects (drawing, sounds, particles, floating texts)
  are dropped: they touch no simulation state read by the core.
-/

namespace TDS

/-- `TowerType` enum (`TDS.py` lines 74-79). -/
inductive TowerType where
  | sniper
  | artillery
  | laser
  | rocket
  | tesla
deriving DecidableEq

/-- `EnemyType` enum (`TDS.py` lines 82-93). -/
inductive EnemyType where
  | slime
  | orc
  | goblin
  | skeleton
  | knight
  | tank
  | ninja
  | bossDragon
  | bossGiant
  | bossWizard
  | bossCyber
deriving DecidableEq

/-- `Difficulty` enum (`TDS.py` lines 96-99). -/
inductive Difficulty where
  | easy
  | normal
  | hard
deriving DecidableEq

/-- Game constants (`TDS.py` lines 64-71). -/
def STARTING_MONEY_EASY : ℤ := 300

def STARTING_MONEY_NORMAL : ℤ := 220

def STARTING_MONEY_HARD : ℤ := 180

def STARTING_LIVES_EASY : ℤ := 35

def STARTING_LIVES_NORMAL : ℤ := 25

def STARTING_LIVES_HARD : ℤ := 18

def BASE_DAMAGE : ℤ := 8

def WAVE_AUTO_START_DELAY : ℚ := 15

/-- Python `int(.)` applied to a rational: truncation toward zero. -/
def pyInt (q : ℚ) : ℤ :=
  if 0 ≤ q then q.floor else -((-q).floor)

/-- Per-match starting money (`GameView.__init__`, lines 1610-1618). -/
def startingMoney : Difficulty → ℤ
  | .easy => STARTING_MONEY_EASY
  | .normal => STARTING_MONEY_NORMAL
  | .hard => STARTING_MONEY_HARD

/-- Per-match starting lives (`GameView.__init__`, lines 1610-1618). -/
def startingLives : Difficulty → ℤ
  | .easy => STARTING_LIVES_EASY
  | .normal => STARTING_LIVES_NORMAL
  | .hard => STARTING_LIVES_HARD

/-- The simulation-relevant state of `Enemy` (`TDS.py` lines 301-447).
`id` stands for Python object identity (list membership and `.index` in the
source compare object identities; distinct spawned enemies are distinct
objects). World positions and the path polyline are rationals. -/
structure Enemy where
  id : ℕ
  x : ℚ
  y : ℚ
  health : ℚ
  speed : ℚ
  bounty : ℤ
  armor : ℚ
  evasion : ℚ
  alive : Bool
  pathIndex : ℕ
  path : List (ℚ × ℚ)
deriving DecidableEq

namespace Enemy

/-- `Enemy.has_reached_end` (lines 446-447). -/
def hasReachedEnd (e : Enemy) : Bool :=
  e.path.length ≤ e.pathIndex

/-- `Enemy.take_damage(damage, is_critical)` (lines 449-462).
`evade` is the outcome of the `random.random() < self.evasion` roll.
Returns the updated enemy and the `(killed, is_critical)` result pair. -/
def takeDamage (e : Enemy) (damage : ℚ) (isCritical : Bool) (evade : Bool) :
    Enemy × Bool × Bool :=
  if evade then
    (e, false, isCritical)
  else
    let health := e.health - damage * (1 - e.armor)
    if health ≤ 0 then
      ({ e with health := health, alive := false }, true, isCritical)
    else
      ({ e with health := health }, false, isCritical)

/-- `Enemy.update` (lines 428-444), parameterised by the float
`sqrt`-normalised movement step `move` (taken when the distance to the
current waypoint exceeds 2; the squared comparison `d2 > 4` is equivalent).
No verified property depends on `move`. -/
def update (move : Enemy → Enemy) (e : Enemy) : Enemy :=
  if !e.alive then e
  else
    match e.path.get? e.pathIndex with
    | none => e
    | some t =>
      let dx := t.1 - e.x
      let dy := t.2 - e.y
      if dx ^ 2 + dy ^ 2 > 4 then move e
      else { e with pathIndex := e.pathIndex + 1 }

end Enemy

/-- In-place mutation of the enemy object with identity `i` inside the
shared enemy list (object identity = the `id` field). -/
def applyToId (enemies : List Enemy) (i : ℕ) (f : Enemy → Enemy) :
    List Enemy :=
  enemies.map (fun e => if e.id = i then f e else e)

/-- The simulation-relevant state of `Projectile` (`TDS.py` lines 227-297).
The target is the identity of the targeted enemy (weak reference).
Velocity and heading are presentation/motion state handled by the motion
oracle and are not tracked. -/
structure Projectile where
  x : ℚ
  y : ℚ
  target : Option ℕ
  damage : ℚ
  speed : ℚ
  homing : Bool
  homingStrength : ℚ
  aoeRadius : ℚ
  penetration : ℕ
  isCritical : Bool
deriving DecidableEq

/-- The simulation-relevant state of `Tower` (`TDS.py` lines 510-605).
All per-archetype ability parameters are carried by every tower, as in the
Python object model (unset attributes simply never read); here they are
initialised to the archetype's values by `mkTower` and to 0 otherwise. -/
structure Tower where
  towerType : TowerType
  x : ℚ
  y : ℚ
  level : ℕ
  fireTimer : ℚ
  target : Option ℕ
  maxLevel : ℕ
  baseDamage : ℚ
  baseRange : ℚ
  baseFireRate : ℚ
  cost : ℤ
  upgradeCost : ℤ
  projectileSpeed : ℚ
  damage : ℚ
  range : ℚ
  fireRate : ℚ
  critChance : ℚ
  critMultiplier : ℚ
  splashRadius : ℚ
  splashDamagePercent : ℚ
  chainTargets : ℕ
  chainDamageReduction : ℚ
  missileCount : ℕ
  homingStrength : ℚ
  maxTargets : ℕ
  damageReduction : ℚ
deriving DecidableEq

/-- `Tower.__init__` (lines 511-605): per-archetype base stats; the derived
stats start at the base values (`damage = base_damage` etc., lines 602-604). -/
def mkTower (towerType : TowerType) (x y : ℚ) : Tower :=
  let base : Tower :=
    { towerType := towerType, x := x, y := y, level := 1, fireTimer := 0,
      target := none, maxLevel := 4, baseDamage := 0, baseRange := 0,
      baseFireRate := 0, cost := 0, upgradeCost := 0, projectileSpeed := 0,
      damage := 0, range := 0, fireRate := 0, critChance := 0,
      critMultiplier := 0, splashRadius := 0, splashDamagePercent := 0,
      chainTargets := 0, chainDamageReduction := 0, missileCount := 0,
      homingStrength := 0, maxTargets := 0, damageReduction := 0 }
  let t : Tower :=
    match towerType with
    | .sniper =>
      { base with
        baseDamage := 25, baseRange := 280, baseFireRate := 1.2,
        cost := 160, projectileSpeed := 16, upgradeCost := 80,
        critChance := 0.15, critMultiplier := 2 }
    | .artillery =>
      { base with
        baseDamage := 50, baseRange := 220, baseFireRate := 0.8,
        cost := 320, projectileSpeed := 9, upgradeCost := 160,
        splashRadius := 60, splashDamagePercent := 0.5 }
    | .laser =>
      { base with
        baseDamage := 18, baseRange := 240, baseFireRate := 2.5,
        cost := 240, projectileSpeed := 12, upgradeCost := 120,
        chainTargets := 3, chainDamageReduction := 0.7 }
    | .rocket =>
      { base with
        baseDamage := 35, baseRange := 200, baseFireRate := 1.5,
        cost := 280, projectileSpeed := 7, upgradeCost := 140,
        missileCount := 2, homingStrength := 0.15 }
    | .tesla =>
      { base with
        baseDamage := 12, baseRange := 180, baseFireRate := 3,
        cost := 300, projectileSpeed := 20, upgradeCost := 150,
        maxTargets := 4, damageReduction := 0.8 }
  { t with
    damage := t.baseDamage, range := t.baseRange,
    fireRate := t.baseFireRate }

namespace Tower

/-- Squared Euclidean distance from a tower to an enemy.  The source
compares `sqrt d2` against ranges/other distances; all such comparisons are
embedded squared. -/
def dist2 (t : Tower) (e : Enemy) : ℚ :=
  (t.x - e.x) ^ 2 + (t.y - e.y) ^ 2

/-- `Tower.find_multiple_targets(enemies)` (lines 628-643): all alive
enemies within range paired with their distance, sorted ascending by
distance (Python's stable `list.sort`; embedded with the stable
`List.insertionSort`), first `max_targets` of them. -/
def findMultipleTargets (t : Tower) (enemies : List Enemy) : List Enemy :=
  let targets :=
    (enemies.filter (fun e => e.alive && 0 < e.health)).filterMap
      (fun e => if dist2 t e ≤ t.range ^ 2 then some (e, dist2 t e) else none)
  let sorted := targets.insertionSort (fun a b => a.2 ≤ b.2)
  (sorted.take t.maxTargets).map Prod.fst

/-- `Tower.find_target(enemies)` (lines 607-626), the single-target branch:
nearest alive enemy strictly within range, ties keeping the first found.
(The tesla/level≥2 multi-target dispatch at the top of `find_target` is
handled at the call sites that use it.) -/
def findTarget (t : Tower) (enemies : List Enemy) : Option Enemy :=
  (enemies.foldl
    (fun (acc : Option Enemy × ℚ) e =>
      if e.alive && 0 < e.health && decide (dist2 t e < acc.2) then
        (some e, dist2 t e)
      else acc)
    (none, t.range ^ 2)).1

/-- `Tower.can_attack` (lines 645-646). -/
def canAttack (t : Tower) : Bool :=
  1 / t.fireRate ≤ t.fireTimer

/-- `Tower.create_projectile` (lines 684-705).  `critRoll` is the outcome of
the sniper `random.random() < self.crit_chance` roll.  The projectile
inherits the tower's current target reference. -/
def createProjectile (t : Tower) (critRoll : Bool) : Projectile :=
  let isCritical := t.towerType = TowerType.sniper ∧ critRoll
  let actualDamage := if isCritical then t.damage * t.critMultiplier else t.damage
  { x := t.x, y := t.y, target := t.target, damage := actualDamage,
    speed := t.projectileSpeed,
    homing := t.towerType = TowerType.rocket,
    homingStrength :=
      if t.towerType = TowerType.rocket then t.homingStrength else 0.1,
    aoeRadius :=
      if t.towerType = TowerType.artillery then t.splashRadius else 0,
    penetration := 1,
    isCritical := isCritical }

/-- `Tower.attack` (lines 677-682): rocket towers of level ≥ 2 emit
`missile_count` projectiles, every other tower exactly one. -/
def attack (t : Tower) (critRoll : Bool) : List Projectile :=
  if t.towerType = TowerType.rocket ∧ 2 ≤ t.level then
    (List.range t.missileCount).map (fun _ => createProjectile t critRoll)
  else
    [createProjectile t critRoll]

/-- `Tower.attack_tesla` (lines 735-744): every selected target takes
`damage * damage_reduction ** targets.index(target)` via `take_damage`;
no projectile is created.  `evade` is the per-enemy evasion-roll oracle. -/
def attackTesla (t : Tower) (enemies : List Enemy) (evade : ℕ → Bool) :
    List Enemy :=
  let targets := findMultipleTargets t enemies
  targets.foldl
    (fun es tgt =>
      let damage := t.damage * t.damageReduction ^ (targets.indexOf tgt)
      applyToId es tgt.id
        (fun e => (e.takeDamage damage false (evade e.id)).1))
    enemies

/-- `Tower.upgrade` (lines 854-890).  Returns the updated tower and the
Python return value (the post-increase `upgrade_cost`, or 0 at max level). -/
def upgrade (t : Tower) : Tower × ℤ :=
  if t.level < t.maxLevel then
    let level := t.level + 1
    let multiplier : ℚ :=
      match level with
      | 1 => 1 | 2 => 1.5 | 3 => 2.2 | 4 => 3
      | _ => 0  -- unreachable: `upgrade_multipliers` has keys 1-4 only
    let upgradeCost := pyInt ((t.upgradeCost : ℚ) * 1.6)
    let t := { t with
      level := level,
      damage := (pyInt (t.baseDamage * multiplier) : ℤ),
      range := (pyInt (t.baseRange * 1.2 ^ (level - 1)) : ℤ),
      fireRate := t.baseFireRate * 1.25 ^ (level - 1),
      upgradeCost := upgradeCost }
    let t :=
      match t.towerType with
      | .sniper => { t with
          critChance := 0.15 + (level - 1 : ℕ) * 0.05,
          critMultiplier := 2 + (level - 1 : ℕ) * 0.5 }
      | .artillery => { t with
          splashRadius := 60 + (level - 1 : ℕ) * 20,
          splashDamagePercent := 0.5 + (level - 1 : ℕ) * 0.1 }
      | .laser => { t with chainTargets := 3 + (level - 1) }
      | .rocket => { t with
          missileCount := 2 + (level - 1),
          homingStrength := 0.15 + (level - 1 : ℕ) * 0.05 }
      | .tesla => { t with maxTargets := 4 + (level - 1) * 2 }
    (t, upgradeCost)
  else
    (t, 0)

/-- `t` after `n` successive `upgrade()` calls (return values dropped). -/
def upgradeIter (t : Tower) : ℕ → Tower
  | 0 => t
  | n + 1 => (upgrade (upgradeIter t n)).1

end Tower

/-- `TowerType(value)` on a snapshot string: `some` for the five enum
values, `none` models the `ValueError` raised otherwise
(`load_save`, lines 3006-3013). -/
def towerTypeOfString : String → Option TowerType
  | "sniper" => some .sniper
  | "artillery" => some .artillery
  | "laser" => some .laser
  | "rocket" => some .rocket
  | "tesla" => some .tesla
  | _ => none

/-- One tower entry of a save snapshot: `(tower_type.value, x, y, level)`
(`save_game`, lines 2984-2987). -/
structure SaveTowerEntry where
  typeName : String
  x : ℚ
  y : ℚ
  level : ℕ
deriving DecidableEq

/-- Reconstruction of one tower in `GameView.load_save` (lines 3007-3010):
build a fresh tower, overwrite its `level` with the saved one, then call
`upgrade()` `level - 1` times. -/
def loadTower (towerType : TowerType) (x y : ℚ) (level : ℕ) : Tower :=
  Tower.upgradeIter { mkTower towerType x y with level := level } (level - 1)

/-- The tower-loading loop of `GameView.load_save` (lines 3003-3013):
entries with an unknown archetype raise `ValueError`, are caught and
skipped; all other entries append a reconstructed tower. -/
def loadSaveTowers (entries : List SaveTowerEntry) : List Tower :=
  entries.foldl
    (fun acc d =>
      match towerTypeOfString d.typeName with
      | some towerType => acc ++ [loadTower towerType d.x d.y d.level]
      | none => acc)
    []

/-! ## Grid pathfinder (`find_path_bfs`, `create_single_path`, `load_map`) -/

/-- A grid cell `(x, y)`. -/
abbrev Cell := ℤ × ℤ

/-- The 4-neighbourhood scan order of `find_path_bfs` (line 1776):
`(1,0), (-1,0), (0,1), (0,-1)`. -/
def nbrs (c : Cell) : List Cell :=
  [(c.1 + 1, c.2), (c.1 - 1, c.2), (c.1, c.2 + 1), (c.1, c.2 - 1)]

/-- 4-adjacency of grid cells. -/
def Adj (a b : Cell) : Prop := b ∈ nbrs a

instance : DecidableRel Adj := fun a b =>
  inferInstanceAs (Decidable (b ∈ nbrs a))

/-- The neighbour-expansion step of the BFS loop (lines 1776-1782): for each
neighbour of the current cell, in scan order, if it is a walkable cell not
yet visited, mark it visited and append the extended path to the queue.
Paths are stored reversed (current cell first); `path` is the reversed path
whose first element is the current cell. -/
def bfsExpand (pts : List Cell) (path : List Cell) (c : Cell)
    (queue : List (List Cell)) (visited : List Cell) :
    List (List Cell) × List Cell :=
  (nbrs c).foldl
    (fun (acc : List (List Cell) × List Cell) n =>
      if n ∈ pts ∧ n ∉ acc.2 then (acc.1 ++ [n :: path], n :: acc.2)
      else acc)
    (queue, visited)

/-- The BFS loop of `find_path_bfs` (lines 1769-1784), fuel-based: pop the
first queued path; if its current cell is the goal return the path
(un-reversed), else expand.  Fuel `pts.length + 1` always suffices since
every enqueue marks a fresh cell visited. -/
def bfsAux (pts : List Cell) (endC : Cell) :
    ℕ → List (List Cell) → List Cell → Option (List Cell)
  | 0, _, _ => none
  | _ + 1, [], _ => none
  | fuel + 1, path :: queue, visited =>
    match path with
    | [] => none  -- unreachable: queued paths are nonempty
    | c :: _ =>
      if c = endC then some path.reverse
      else
        let s := bfsExpand pts path c queue visited
        bfsAux pts endC fuel s.1 s.2

/-- `GameView.find_path_bfs(start, end, points_dict)` (lines 1761-1784).
`pts` is the key set of `points_dict`. -/
def findPathBFS (start endC : Cell) (pts : List Cell) : Option (List Cell) :=
  if start ∈ pts ∧ endC ∈ pts then
    bfsAux pts endC (pts.length + 1) [[start]] [start]
  else
    none

/-- World position of a cell via `points_dict` (association list); cells
looked up by the source are always keys, the default is never read. -/
def worldOf (dict : List (Cell × (ℤ × ℤ))) (c : Cell) : ℤ × ℤ :=
  ((dict.find? (fun p => p.1 = c)).map Prod.snd).getD (0, 0)

/-- `GameView.create_single_path(points_dict)` (lines 1928-1943).
`none` models the early `return` that leaves `path_points` untouched;
otherwise the produced `path_points` polyline is returned:  the BFS path
mapped through `points_dict`, or the documented two-point fallback
`[start, end]` when BFS finds no route. -/
def createSinglePath (startPositions : List Cell)
    (endPos : Option (Cell × (ℤ × ℤ))) (dict : List (Cell × (ℤ × ℤ))) :
    Option (List (ℤ × ℤ)) :=
  match startPositions, endPos with
  | [], _ => none
  | _, none => none
  | s :: _, some (ec, ew) =>
    match findPathBFS s ec (dict.map Prod.fst) with
    | some path => some (path.map (worldOf dict))
    | none => some [worldOf dict s, ew]

/-- The `path_points` fallback of `GameView.load_map` (lines 1906-1926),
run when `create_single_path` left `path_points` empty: a two-point
segment between the start (or a default anchor at tile (2,13)) and the end
(or a default anchor at tile (19,2)). -/
def loadMapFallback (offx offy : ℤ) (startPositions : List Cell)
    (endPos : Option (Cell × (ℤ × ℤ))) (dict : List (Cell × (ℤ × ℤ))) :
    List (ℤ × ℤ) :=
  match startPositions, endPos with
  | s :: _, some (_, ew) => [worldOf dict s, ew]
  | _, _ =>
    let startW :=
      match startPositions with
      | [] => (64 * 2 + offx, 64 * 13 + offy)
      | s :: _ => worldOf dict s
    let endW :=
      match endPos with
      | none => (64 * 19 + offx, 64 * 2 + offy)
      | some (_, ew) => ew
    [startW, endW]

/-- The single-path `path_points` derivation of `GameView.load_map`
(lines 1901-1926, non-HELL branch): `create_single_path`, then the
two-point fallback if `path_points` is still empty. -/
def loadMapPath (offx offy : ℤ) (startPositions : List Cell)
    (endPos : Option (Cell × (ℤ × ℤ))) (dict : List (Cell × (ℤ × ℤ))) :
    List (ℤ × ℤ) :=
  match createSinglePath startPositions endPos dict with
  | some path =>
    if path.isEmpty then loadMapFallback offx offy startPositions endPos dict
    else path
  | none => loadMapFallback offx offy startPositions endPos dict

/-- A walk from `s` to `e` inside the walkable cell set `pts`:
nonempty, 4-connected consecutive steps, all cells walkable. -/
def ValidWalk (s e : Cell) (pts : List Cell) (p : List Cell) : Prop :=
  p ≠ [] ∧ p.head? = some s ∧ p.getLast? = some e ∧
    (∀ c ∈ p, c ∈ pts) ∧ p.Chain' Adj

/-- Manhattan distance between two cells. -/
def manhattan (a b : Cell) : ℕ :=
  (a.1 - b.1).natAbs + (a.2 - b.2).natAbs

/-- `cs` is a single unobstructed corridor from `s` to `e` and `pts` is
exactly its cell set: consecutive corridor cells are 4-adjacent,
non-consecutive ones are not (no shortcuts or side branches), and the
corridor realises the Manhattan distance (unobstructed: no detours). -/
structure IsCorridor (s e : Cell) (pts : List Cell) (cs : List Cell) :
    Prop where
  head : cs.head? = some s
  last : cs.getLast? = some e
  nodup : cs.Nodup
  chain : cs.Chain' Adj
  mem : ∀ c, c ∈ pts ↔ c ∈ cs
  ptsNodup : pts.Nodup
  noChord : ∀ i j, (hi : i < cs.length) → (hj : j < cs.length) →
    i + 1 < j → ¬ Adj (cs.get ⟨i, hi⟩) (cs.get ⟨j, hj⟩)
  unobstructed : cs.length = manhattan s e + 1

/-! ## Wave director (`generate_waves`, `start_wave`, wave lifecycle) -/

/-- A wave: the ordered `{archetype-name: count}` mapping (Python dicts
iterate in insertion order, which the literal below preserves). -/
abbrev Wave := List (String × ℕ)

/-- The `elif` chain of `start_wave` (lines 2750-2788): archetype tag for
each recognised key name, `none` for unrecognised keys (which schedule no
spawn). -/
def knownTag : String → Option EnemyType
  | "slime" => some .slime
  | "orc" => some .orc
  | "goblin" => some .goblin
  | "skeleton" => some .skeleton
  | "knight" => some .knight
  | "tank" => some .tank
  | "ninja" => some .ninja
  | "boss_dragon" => some .bossDragon
  | "boss_giant" => some .bossGiant
  | "boss_wizard" => some .bossWizard
  | "boss_cyber" => some .bossCyber
  | _ => none

/-- The `enemy_types` list built by `start_wave` before shuffling
(lines 2749-2788): each recognised entry contributes `count` copies. -/
def flattenWave (w : Wave) : List EnemyType :=
  w.foldl
    (fun acc kc =>
      match knownTag kc.1 with
      | some tag => acc ++ List.replicate kc.2 tag
      | none => acc)
    []

/-- `sum(wave_data.values())` (line 2746). -/
def sumCounts (w : Wave) : ℕ :=
  (w.map Prod.snd).sum

/-- The `base_waves` table of `generate_waves` (lines 1664-1707). -/
def baseWaves : List Wave :=
  [[("slime", 15), ("orc", 0), ("goblin", 5), ("skeleton", 0), ("knight", 0),
    ("tank", 0), ("ninja", 3), ("boss_dragon", 0), ("boss_giant", 0),
    ("boss_wizard", 0), ("boss_cyber", 0)],
   [("slime", 20), ("orc", 8), ("goblin", 10), ("skeleton", 0), ("knight", 0),
    ("tank", 2), ("ninja", 5), ("boss_dragon", 0), ("boss_giant", 0),
    ("boss_wizard", 0), ("boss_cyber", 0)],
   [("slime", 25), ("orc", 12), ("goblin", 15), ("skeleton", 5), ("knight", 0),
    ("tank", 3), ("ninja", 8), ("boss_dragon", 0), ("boss_giant", 0),
    ("boss_wizard", 0), ("boss_cyber", 0)],
   [("slime", 30), ("orc", 15), ("goblin", 18), ("skeleton", 8), ("knight", 2),
    ("tank", 5), ("ninja", 10), ("boss_dragon", 0), ("boss_giant", 0),
    ("boss_wizard", 0), ("boss_cyber", 0)],
   [("slime", 25), ("orc", 18), ("goblin", 20), ("skeleton", 12), ("knight", 4),
    ("tank", 6), ("ninja", 12), ("boss_dragon", 0), ("boss_giant", 0),
    ("boss_wizard", 0), ("boss_cyber", 0)],
   [("slime", 30), ("orc", 20), ("goblin", 25), ("skeleton", 15), ("knight", 6),
    ("tank", 8), ("ninja", 15), ("boss_dragon", 1), ("boss_giant", 0),
    ("boss_wizard", 0), ("boss_cyber", 0)],
   [("slime", 35), ("orc", 22), ("goblin", 28), ("skeleton", 18), ("knight", 8),
    ("tank", 10), ("ninja", 18), ("boss_dragon", 0), ("boss_giant", 1),
    ("boss_wizard", 0), ("boss_cyber", 0)],
   [("slime", 40), ("orc", 25), ("goblin", 35), ("skeleton", 22), ("knight", 10),
    ("tank", 12), ("ninja", 20), ("boss_dragon", 0), ("boss_giant", 0),
    ("boss_wizard", 1), ("boss_cyber", 0)],
   [("slime", 45), ("orc", 28), ("goblin", 38), ("skeleton", 25), ("knight", 12),
    ("tank", 15), ("ninja", 22), ("boss_dragon", 1), ("boss_giant", 1),
    ("boss_wizard", 0), ("boss_cyber", 0)],
   [("slime", 50), ("orc", 32), ("goblin", 45), ("skeleton", 28), ("knight", 15),
    ("tank", 18), ("ninja", 25), ("boss_dragon", 1), ("boss_giant", 0),
    ("boss_wizard", 1), ("boss_cyber", 0)],
   [("slime", 55), ("orc", 35), ("goblin", 48), ("skeleton", 30), ("knight", 18),
    ("tank", 20), ("ninja", 28), ("boss_dragon", 0), ("boss_giant", 1),
    ("boss_wizard", 1), ("boss_cyber", 0)],
   [("slime", 60), ("orc", 40), ("goblin", 55), ("skeleton", 35), ("knight", 22),
    ("tank", 22), ("ninja", 30), ("boss_dragon", 2), ("boss_giant", 0),
    ("boss_wizard", 1), ("boss_cyber", 1)],
   [("slime", 65), ("orc", 45), ("goblin", 60), ("skeleton", 40), ("knight", 25),
    ("tank", 25), ("ninja", 32), ("boss_dragon", 1), ("boss_giant", 2),
    ("boss_wizard", 1), ("boss_cyber", 1)],
   [("slime", 70), ("orc", 50), ("goblin", 65), ("skeleton", 45), ("knight", 28),
    ("tank", 28), ("ninja", 35), ("boss_dragon", 2), ("boss_giant", 2),
    ("boss_wizard", 2), ("boss_cyber", 1)]]

/-- `GameView.generate_waves` (lines 1663-1722): the base table with
per-difficulty scaling.  `int(count * 0.7)` = `count * 7 / 10` for every
count in the table (checked against CPython float semantics),
`int(count * 2.0)` = `2 * count` exactly. -/
def generateWaves (d : Difficulty) : List Wave :=
  match d with
  | .easy =>
    baseWaves.map (fun w => w.map (fun kc =>
      if kc.1.startsWith "boss" then (kc.1, kc.2 - 1)
      else if 0 < kc.2 then (kc.1, kc.2 * 7 / 10)
      else kc))
  | .normal => baseWaves
  | .hard =>
    baseWaves.map (fun w => w.map (fun kc =>
      if 0 < kc.2 then (kc.1, kc.2 * 2) else kc))

/-- The spawn schedule set up by `start_wave` (lines 2792-2796): one
deferred `spawn_enemy` per shuffled entry, the i-th at delay `i * 1.5`. -/
def scheduleSpawns (shuffled : List EnemyType) : List (ℚ × EnemyType) :=
  (List.range shuffled.length).zip shuffled |>.map
    (fun p => ((p.1 : ℚ) * 1.5, p.2))

/-! ## Match state (`GameView.__init__`, `on_update`, `start_wave`) -/

/-- The simulation-relevant state of `GameView` (lines 1597-1661). -/
structure GState where
  difficulty : Difficulty
  money : ℤ
  lives : ℤ
  score : ℤ
  wave : ℕ
  waveTimer : ℚ
  waveActive : Bool
  enemiesSpawned : ℕ
  totalEnemies : ℕ
  gameOver : Bool
  victory : Bool
  enemies : List Enemy
  towers : List Tower
  projectiles : List Projectile
  waves : List Wave
  updateCounter : ℕ
  autoWaveStartDelay : ℚ
  waveStartCountdown : ℚ
deriving DecidableEq

/-- `GameView.__init__` (lines 1597-1661): fresh match state. -/
def mkGameView (d : Difficulty) : GState :=
  { difficulty := d, money := startingMoney d, lives := startingLives d,
    score := 0, wave := 0, waveTimer := 0, waveActive := false,
    enemiesSpawned := 0, totalEnemies := 0, gameOver := false,
    victory := false, enemies := [], towers := [], projectiles := [],
    waves := generateWaves d, updateCounter := 0,
    autoWaveStartDelay := WAVE_AUTO_START_DELAY, waveStartCountdown := 0 }

/-- `GameView.start_wave` (lines 2739-2798).  `shuffle` is the
`random.shuffle` oracle (a permutation in any real run).  Returns the new
state and the scheduled spawns (one per shuffled entry, stride 1.5 s). -/
def startWave (shuffle : List EnemyType → List EnemyType) (s : GState) :
    GState × List (ℚ × EnemyType) :=
  if s.wave < s.waves.length then
    let waveData := s.waves.getD s.wave []
    let shuffled := shuffle (flattenWave waveData)
    ({ s with
      waveActive := true, waveStartCountdown := 0,
      totalEnemies := sumCounts waveData, enemiesSpawned := 0,
      wave := s.wave + 1 },
     scheduleSpawns shuffled)
  else
    (s, [])

/-- The enemy advance/escape loop of `on_update` (lines 2620-2627).
Python iterates the live list while removing from it, so removing the
element at the iterator's index skips the next one; the loop is embedded
index-faithfully.  Fuel `initial length + 1` always suffices. -/
def escapeLoop (move : Enemy → Enemy) :
    ℕ → ℕ → List Enemy → ℤ → Bool → List Enemy × ℤ × Bool
  | 0, _, es, lives, go => (es, lives, go)
  | fuel + 1, i, es, lives, go =>
    match es.get? i with
    | none => (es, lives, go)
    | some e =>
      let e1 := Enemy.update move e
      let es1 := es.set i e1
      if e1.hasReachedEnd then
        let lives1 := lives - BASE_DAMAGE
        escapeLoop move fuel (i + 1) (es1.eraseIdx i) lives1
          (go || decide (lives1 ≤ 0))
      else
        escapeLoop move fuel (i + 1) es1 lives go

/-- `Tower.update` (lines 648-675): advance the cooldown; tesla towers
discharge on all targets in range (no projectile); other towers
(re-)acquire a target and fire a projectile when ready.  The stored target
reference is resolved against the live enemy list by identity; a reference
whose enemy left the list is treated as lost (in CPython an escaped-but-
removed enemy object would briefly remain targetable at its stale
position; no verified property involves that corner). -/
def towerUpdate (dt : ℚ) (enemies : List Enemy) (projectiles : List Projectile)
    (critRoll : Bool) (evade : ℕ → Bool) (t : Tower) :
    Tower × List Enemy × List Projectile :=
  let t := { t with fireTimer := t.fireTimer + dt }
  if t.towerType = TowerType.tesla then
    if t.canAttack then
      ({ t with fireTimer := 0 }, Tower.attackTesla t enemies evade, projectiles)
    else
      (t, enemies, projectiles)
  else
    let lookup := fun (tgt : Option ℕ) =>
      tgt.bind (fun i => enemies.find? (fun e => e.id = i))
    let t :=
      match lookup t.target with
      | none =>
        { t with target := (Tower.findTarget t enemies).map Enemy.id }
      | some tgt =>
        if !tgt.alive || decide (tgt.health ≤ 0) then
          { t with target := (Tower.findTarget t enemies).map Enemy.id }
        else if Tower.dist2 t tgt > t.range ^ 2 then
          { t with target := (Tower.findTarget t enemies).map Enemy.id }
        else t
    match lookup t.target with
    | some tgt =>
      if t.canAttack && tgt.alive && decide (Tower.dist2 t tgt ≤ t.range ^ 2) then
        ({ t with fireTimer := 0 }, enemies, projectiles ++ Tower.attack t critRoll)
      else
        (t, enemies, projectiles)
    | none => (t, enemies, projectiles)

/-- The tower loop of `on_update` (lines 2633-2641); `crit` supplies the
per-tower critical roll of this tick. -/
def towerPhase (dt : ℚ) (crit : ℕ → Bool) (evade : ℕ → Bool) :
    List Tower → ℕ → List Enemy → List Projectile →
    List Tower × List Enemy × List Projectile
  | [], _, es, ps => ([], es, ps)
  | tw :: rest, i, es, ps =>
    let r := towerUpdate dt es ps (crit i) evade tw
    let rest1 := towerPhase dt crit evade rest (i + 1) r.2.1 r.2.2
    (r.1 :: rest1.1, rest1.2.1, rest1.2.2)

/-- Squared distance from a projectile to an enemy. -/
def pdist2 (p : Projectile) (e : Enemy) : ℚ :=
  (p.x - e.x) ^ 2 + (p.y - e.y) ^ 2

/-- The retarget-on-death step of `on_update` (lines 2648-2663): if the
projectile's target is no longer alive, aim at the nearest living enemy
(strictly closer wins, first found keeps ties); keep going without a
target if none lives. -/
def retargetIfDead (p : Projectile) (enemies : List Enemy) : Projectile :=
  let dead :=
    match p.target with
    | none => false
    | some i =>
      match enemies.find? (fun (e : Enemy) => e.id = i) with
      | some tgt => !tgt.alive
      | none => true
  if dead then
    let closest := enemies.foldl
      (fun (acc : Option (Enemy × ℚ)) (e : Enemy) =>
        if e.alive then
          match acc with
          | none => some (e, pdist2 p e)
          | some (_, d) =>
            if pdist2 p e < d then some (e, pdist2 p e) else acc
        else acc)
      none
    match closest with
    | some (c, _) => { p with target := some c.id }
    | none => p
  else p

/-- The hit-resolution block of `on_update` (lines 2665-2699): each enemy
of the collision list that is still alive takes the projectile's damage
(with its critical flag); a kill credits `bounty` to money and
`bounty * 10` to score and removes the enemy.  `hitIds` is the identity
list produced by the `arcade` sprite-overlap test. -/
def resolveProjectileHit (p : Projectile) (hitIds : List ℕ)
    (evade : ℕ → Bool) (enemies : List Enemy) (money score : ℤ) :
    List Enemy × ℤ × ℤ :=
  hitIds.foldl
    (fun (acc : List Enemy × ℤ × ℤ) i =>
      match acc.1.find? (fun e => e.id = i) with
      | some e =>
        if e.alive then
          let r := e.takeDamage p.damage p.isCritical (evade e.id)
          if r.2.1 then
            (acc.1.filter (fun x => x.id ≠ i),
             acc.2.1 + e.bounty, acc.2.2 + e.bounty * 10)
          else
            (applyToId acc.1 i (fun _ => r.1), acc.2.1, acc.2.2)
        else acc
      | none => acc)
    (enemies, money, score)

/-- The projectile loop of `on_update` (lines 2645-2699): move
(motion/homing oracle `pstep`), retarget if the target died, collide
against the live enemies (overlap oracle `hitQ`); a projectile that hit
anything is removed.  Python iterates over a copy of the list, so
removals do not skip entries. -/
def projectilePhase (pstep : Projectile → Projectile)
    (hitQ : Projectile → Enemy → Bool) (evade : ℕ → Bool) :
    List Projectile → List Enemy → ℤ → ℤ →
    List Projectile × List Enemy × ℤ × ℤ
  | [], es, m, sc => ([], es, m, sc)
  | p :: rest, es, m, sc =>
    let p1 := retargetIfDead (pstep p) es
    let hitIds := (es.filter (hitQ p1)).map Enemy.id
    if hitIds.isEmpty then
      let r := projectilePhase pstep hitQ evade rest es m sc
      (p1 :: r.1, r.2.1, r.2.2.1, r.2.2.2)
    else
      let h := resolveProjectileHit p1 hitIds evade es m sc
      let r := projectilePhase pstep hitQ evade rest h.1 h.2.1 h.2.2
      (r.1, r.2.1, r.2.2.1, r.2.2.2)

/-- The wave-lifecycle tail of `on_update` (lines 2706-2737): auto-start
countdown (may fire `start_wave`), wave-completion check (clears the wave
and detects victory), idle wave timer. -/
def waveLogic (dt : ℚ) (shuffle : List EnemyType → List EnemyType)
    (s : GState) : GState × List (ℚ × EnemyType) :=
  let step1 : GState × List (ℚ × EnemyType) :=
    if s.waveActive = false ∧ s.totalEnemies ≤ s.enemiesSpawned ∧
        s.enemies.length = 0 ∧ s.wave < s.waves.length then
      if s.waveStartCountdown ≤ 0 then
        ({ s with waveStartCountdown := s.autoWaveStartDelay }, [])
      else
        let cd := s.waveStartCountdown - dt
        if cd ≤ 0 then startWave shuffle { s with waveStartCountdown := cd }
        else ({ s with waveStartCountdown := cd }, [])
    else
      ({ s with waveStartCountdown := 0 }, [])
  let s1 := step1.1
  let s2 :=
    if s1.enemies.isEmpty ∧ s1.totalEnemies ≤ s1.enemiesSpawned ∧
        s1.waveActive = true then
      let s1 := { s1 with
        waveActive := false, waveTimer := 0,
        enemiesSpawned := 0, totalEnemies := 0 }
      if s1.waves.length ≤ s1.wave then { s1 with victory := true } else s1
    else s1
  let s3 :=
    if s2.waveActive = false ∧ s2.wave < s2.waves.length then
      { s2 with waveTimer := s2.waveTimer + dt }
    else s2
  (s3, step1.2)

/-- `GameView.on_update` (lines 2610-2737): the per-tick update.  Returns
the new state and any spawns scheduled by an auto-started wave.  Oracle
parameters: `emove` (float enemy motion step), `pstep` (float projectile
motion/homing step), `hitQ` (`arcade` sprite-overlap test), `evade` /
`crit` (random rolls), `shuffle` (`random.shuffle`). -/
def onUpdate (emove : Enemy → Enemy) (pstep : Projectile → Projectile)
    (hitQ : Projectile → Enemy → Bool) (evade : ℕ → Bool) (crit : ℕ → Bool)
    (shuffle : List EnemyType → List EnemyType) (dt : ℚ) (s : GState) :
    GState × List (ℚ × EnemyType) :=
  if s.gameOver || s.victory then (s, [])
  else
    let esc := escapeLoop emove (s.enemies.length + 1) 0 s.enemies s.lives
      s.gameOver
    let counter := s.updateCounter + 1
    let tp :=
      if counter % 2 = 0 ∨ esc.1.length < 20 then
        towerPhase dt crit evade s.towers 0 esc.1 s.projectiles
      else
        (s.towers.map (fun t => { t with fireTimer := t.fireTimer + dt }),
         esc.1, s.projectiles)
    let pp := projectilePhase pstep hitQ evade tp.2.2 tp.2.1 s.money s.score
    let projectiles1 :=
      if 100 < pp.1.length then pp.1.drop (pp.1.length - 80) else pp.1
    waveLogic dt shuffle { s with
      enemies := pp.2.1, lives := esc.2.1, gameOver := esc.2.2,
      towers := tp.1, projectiles := projectiles1,
      money := pp.2.2.1, score := pp.2.2.2, updateCounter := counter }

/-! ## Concrete scenario data used by the verification -/

/-- A tower with only the (laser-specific) chain-lightning parameters
changed — used to express that these parameters are inert. -/
def setChain (t : Tower) (a : ℕ) (b : ℚ) : Tower :=
  { t with chainTargets := a, chainDamageReduction := b }

/-- A generic concrete enemy for scenarios: alive, no armor, no evasion. -/
def enemyAt (i : ℕ) (x y : ℚ) (health : ℚ) : Enemy :=
  { id := i, x := x, y := y, health := health, speed := 1, bounty := 10,
    armor := 0, evasion := 0, alive := true, pathIndex := 0, path := [] }

/-- The level-1 artillery tower of the splash scenario, aiming at enemy 1. -/
def c1Tower : Tower :=
  { mkTower TowerType.artillery 0 0 with target := some 1 }

/-- Its projectile (no critical roll: artillery never crits). -/
def c1Proj : Projectile :=
  Tower.createProjectile c1Tower false

/-- Primary enemy A at the impact point. -/
def c1A : Enemy := enemyAt 1 0 0 100

/-- Bystander enemy B, 30 world units from the impact point: inside the
60-unit splash radius, far outside sprite-overlap distance (the sprite
textures are ≈ 10 px). -/
def c1B : Enemy := enemyAt 2 30 0 100

/-- An enemy standing at the final waypoint of a 1-point path: its next
`update()` leaves it in place and `has_reached_end()` holds. -/
def c8enemy (i : ℕ) : Enemy :=
  { id := i, x := 0, y := 0, health := 100, speed := 1, bounty := 5,
    armor := 0, evasion := 0, alive := true, pathIndex := 1, path := [(0, 0)] }

/-- A fresh HARD match in which three enemies are about to escape. -/
def c8start : GState :=
  { mkGameView Difficulty.hard with
    enemies := [c8enemy 1, c8enemy 2, c8enemy 3] }

/-- The state after the first tick on `c8start`: the list iterator skips
the element after each removal, so enemies 1 and 3 escape (lives 18 → 2)
and enemy 2 survives to the next tick. -/
def c8mid (dt : ℚ) : GState :=
  { mkGameView Difficulty.hard with
    enemies := [c8enemy 2], lives := 2, updateCounter := 1,
    waveTimer := 0 + dt }

/-- A game-over state used to witness the tick-freeze clause. -/
def c8over : GState :=
  { mkGameView Difficulty.hard with gameOver := true }

/-- A level-2 tesla tower at the origin (damage 18, range 216,
`max_targets` 6, `damage_reduction` 0.8). -/
def c6t : Tower := Tower.upgradeIter (mkTower TowerType.tesla 0 0) 1

/-- Three enemies: two in tesla range (at distances 10 and 50), one far
outside. -/
def c6es : List Enemy := [enemyAt 1 50 0 100, enemyAt 2 10 0 100,
  enemyAt 3 400 0 100]

/-! ## C3: upgrade monotonicity and max-level no-op -/

theorem upgrade_at_max (t : Tower) (h : t.level = t.maxLevel) :
    Tower.upgrade t = (t, 0) := by
  have hn : ¬ t.level < t.maxLevel := by omega
  simp [Tower.upgrade, hn]

theorem iter3_level_eq_max (tt : TowerType) (x y : ℚ) :
    (Tower.upgradeIter (mkTower tt x y) 3).level
      = (Tower.upgradeIter (mkTower tt x y) 3).maxLevel := by
  cases tt <;> rfl

theorem upgradeIter_stable (tt : TowerType) (x y : ℚ) :
    ∀ n, 3 ≤ n →
      Tower.upgradeIter (mkTower tt x y) n
        = Tower.upgradeIter (mkTower tt x y) 3 := by
  intro n
  induction n with
  | zero => omega
  | succ n ih =>
    intro h
    rcases Nat.lt_or_ge n 3 with h3 | h3
    · have : n = 2 := by omega
      subst this
      rfl
    · show (Tower.upgrade (Tower.upgradeIter (mkTower tt x y) n)).1 = _
      rw [ih h3, upgrade_at_max _ (iter3_level_eq_max tt x y)]

theorem mkTower_xy (tt : TowerType) (x y : ℚ) :
    mkTower tt x y = { mkTower tt 0 0 with x := x, y := y } := by
  cases tt <;> rfl

theorem upgrade_xy (t : Tower) (x y : ℚ) :
    Tower.upgrade { t with x := x, y := y }
      = ({ (Tower.upgrade t).1 with x := x, y := y },
         (Tower.upgrade t).2) := by
  by_cases h : t.level < t.maxLevel
  · cases htt : t.towerType <;> simp [Tower.upgrade, h, htt]
  · simp [Tower.upgrade, h]

theorem upgradeIter_xy (tt : TowerType) (x y : ℚ) (n : ℕ) :
    Tower.upgradeIter (mkTower tt x y) n
      = { Tower.upgradeIter (mkTower tt 0 0) n with x := x, y := y } := by
  induction n with
  | zero => exact mkTower_xy tt x y
  | succ n ih =>
    show (Tower.upgrade _).1 = _
    rw [ih, upgrade_xy]
    rfl

/-- C3.  For every tower archetype placed anywhere and every sequence of
successive `upgrade()` calls, the derived stats `damage`, `range` and
`fire_rate` are monotonically non-decreasing; and `upgrade()` on any tower
whose level equals its max level returns 0 and leaves the tower (level and
every stat) unchanged. -/
theorem C3_upgrade_monotone_and_max_noop :
    (∀ (tt : TowerType) (x y : ℚ) (n : ℕ),
        (Tower.upgradeIter (mkTower tt x y) n).damage ≤
          (Tower.upgradeIter (mkTower tt x y) (n + 1)).damage ∧
        (Tower.upgradeIter (mkTower tt x y) n).range ≤
          (Tower.upgradeIter (mkTower tt x y) (n + 1)).range ∧
        (Tower.upgradeIter (mkTower tt x y) n).fireRate ≤
          (Tower.upgradeIter (mkTower tt x y) (n + 1)).fireRate) ∧
    (∀ t : Tower, t.level = t.maxLevel → Tower.upgrade t = (t, 0)) := by
  constructor
  · intro tt x y n
    rcases Nat.lt_or_ge n 3 with h | h
    · rw [upgradeIter_xy tt x y n, upgradeIter_xy tt x y (n + 1)]
      interval_cases n <;> cases tt <;> refine ⟨?_, ?_, ?_⟩ <;>
        · dsimp only
          with_unfolding_all decide
    · rw [upgradeIter_stable tt x y n h,
        upgradeIter_stable tt x y (n + 1) (by omega)]
      exact ⟨le_refl _, le_refl _, le_refl _⟩
  · exact fun t h => upgrade_at_max t h

/-- Witness for C3: the max-level clause at a concrete level-4 sniper. -/
theorem C3_witness :
    (Tower.upgradeIter (mkTower TowerType.sniper 0 0) 3).level
      = (Tower.upgradeIter (mkTower TowerType.sniper 0 0) 3).maxLevel ∧
    Tower.upgrade (Tower.upgradeIter (mkTower TowerType.sniper 0 0) 3)
      = (Tower.upgradeIter (mkTower TowerType.sniper 0 0) 3, 0) :=
  ⟨by decide,
   C3_upgrade_monotone_and_max_noop.2 _ (by decide)⟩

/-! ## C4: applyDamage (take_damage) -/

/-- C4.  For every alive enemy: an evading roll leaves the enemy unchanged
and returns killed = false with the critical flag preserved; otherwise
exactly `rawDamage * (1 - armor)` is subtracted from health, the critical
flag is preserved, and `killed = true` as well as `alive = false` hold
exactly when the resulting health is ≤ 0. -/
theorem C4_take_damage (e : Enemy) (damage : ℚ) (crit evade : Bool)
    (halive : e.alive = true) :
    (evade = true → e.takeDamage damage crit evade = (e, false, crit)) ∧
    (evade = false →
      (e.takeDamage damage crit evade).1.health
          = e.health - damage * (1 - e.armor) ∧
      (e.takeDamage damage crit evade).2.2 = crit ∧
      ((e.takeDamage damage crit evade).2.1 = true ↔
        (e.takeDamage damage crit evade).1.health ≤ 0) ∧
      ((e.takeDamage damage crit evade).1.alive = false ↔
        (e.takeDamage damage crit evade).1.health ≤ 0)) := by
  constructor
  · intro hv
    subst hv
    simp [Enemy.takeDamage]
  · intro hv
    subst hv
    by_cases h : e.health - damage * (1 - e.armor) ≤ 0 <;>
      simp [Enemy.takeDamage, h, halive]

/-- Witness for C4 at a concrete alive enemy taking 30 raw damage. -/
theorem C4_witness :
    (enemyAt 1 0 0 100).alive = true ∧
    ((enemyAt 1 0 0 100).takeDamage 30 false false).1.health
      = (enemyAt 1 0 0 100).health - 30 * (1 - (enemyAt 1 0 0 100).armor) :=
  ⟨rfl, ((C4_take_damage (enemyAt 1 0 0 100) 30 false false rfl).2 rfl).1⟩

/-! ## C2: save/load tower reconstruction -/

/-- C2 (code evaluation).  Loading a snapshot entry saved at level 2
produces a *level-3* tower with level-3 stats, not the level-2 tower that
placing and upgrading once produces: `load_save` first overwrites `level`
with the saved value and then additionally replays `level - 1` upgrades.
A level-1 entry loads correctly; a level-4 entry loads with level 4 but
never-upgraded base stats. -/
theorem C2_load_replay_eval :
    loadTower TowerType.sniper 0 0 1 = mkTower TowerType.sniper 0 0 ∧
    (loadTower TowerType.sniper 0 0 2).level = 3 ∧
    (Tower.upgradeIter (mkTower TowerType.sniper 0 0) 1).level = 2 ∧
    (loadTower TowerType.sniper 0 0 2).damage = 55 ∧
    (Tower.upgradeIter (mkTower TowerType.sniper 0 0) 1).damage = 37 ∧
    (loadTower TowerType.sniper 0 0 4).level = 4 ∧
    (loadTower TowerType.sniper 0 0 4).damage = 25 ∧
    (Tower.upgradeIter (mkTower TowerType.sniper 0 0) 3).damage = 75 ∧
    loadTower TowerType.sniper 0 0 2
      ≠ Tower.upgradeIter (mkTower TowerType.sniper 0 0) 1 := by
  with_unfolding_all decide

/-! ## C8: HARD lives / BASE_DAMAGE constants -/

/-- C8 (counterexample).  On HARD the match starts with 18 lives (not 15)
and each escape costs `BASE_DAMAGE = 8` (not 5), so the claimed
"15 lives, 5 per escape, 0 after 3 escapes" is false on this code. -/
theorem C8_constants_counterexample :
    STARTING_LIVES_HARD = 18 ∧ BASE_DAMAGE = 8 ∧
    startingLives Difficulty.hard = 18 ∧
    (mkGameView Difficulty.hard).lives = 18 ∧
    ¬ (startingLives Difficulty.hard = 15 ∧ BASE_DAMAGE = 5) := by
  refine ⟨rfl, rfl, rfl, rfl, ?_⟩
  intro h
  exact absurd h.2 (by decide)

/-! ## C9: loading skips unknown archetypes -/

/-- The per-entry contribution of the `load_save` tower loop. -/
def loadEntry (d : SaveTowerEntry) : List Tower :=
  match towerTypeOfString d.typeName with
  | some towerType => [loadTower towerType d.x d.y d.level]
  | none => []

theorem loadSaveTowers_eq_bind (entries : List SaveTowerEntry) :
    loadSaveTowers entries = entries.flatMap loadEntry := by
  have key : ∀ (es : List SaveTowerEntry) (acc : List Tower),
      es.foldl
        (fun acc d =>
          match towerTypeOfString d.typeName with
          | some towerType => acc ++ [loadTower towerType d.x d.y d.level]
          | none => acc)
        acc = acc ++ es.flatMap loadEntry := by
    intro es
    induction es with
    | nil => intro acc; simp
    | cons d es ih =>
      intro acc
      simp only [List.foldl_cons, List.flatMap_cons, ih]
      cases h : towerTypeOfString d.typeName <;>
        simp [loadEntry, h, List.append_assoc]
  simpa using key entries []

/-- C9.  A snapshot whose tower list contains an entry with an unknown
archetype loads exactly as the snapshot without that entry: the bad entry
is skipped and every remaining valid entry still produces its tower (the
count of loaded towers is the count of valid entries). -/
theorem C9_load_skips_invalid (pre post : List SaveTowerEntry)
    (bad : SaveTowerEntry)
    (hbad : towerTypeOfString bad.typeName = none) :
    loadSaveTowers (pre ++ bad :: post) = loadSaveTowers (pre ++ post) ∧
    (loadSaveTowers (pre ++ bad :: post)).length =
      ((pre ++ post).filter
        (fun d => (towerTypeOfString d.typeName).isSome)).length := by
  have hskip : loadEntry bad = [] := by simp [loadEntry, hbad]
  have h1 : loadSaveTowers (pre ++ bad :: post)
      = loadSaveTowers (pre ++ post) := by
    simp [loadSaveTowers_eq_bind, hskip]
  refine ⟨h1, ?_⟩
  rw [h1, loadSaveTowers_eq_bind]
  have hlen : ∀ es : List SaveTowerEntry,
      (es.flatMap loadEntry).length =
        (es.filter (fun d => (towerTypeOfString d.typeName).isSome)).length := by
    intro es
    induction es with
    | nil => simp
    | cons d es ih =>
      cases h : towerTypeOfString d.typeName <;>
        simp [loadEntry, h, List.filter_cons, ih]
  exact hlen _

/-- Witness for C9: a snapshot with a `"dragon"` entry between two valid
entries loads the two valid towers only. -/
theorem C9_witness :
    towerTypeOfString "dragon" = none ∧
    loadSaveTowers
        [⟨"sniper", 0, 0, 1⟩, ⟨"dragon", 1, 1, 2⟩, ⟨"tesla", 2, 2, 1⟩]
      = loadSaveTowers [⟨"sniper", 0, 0, 1⟩, ⟨"tesla", 2, 2, 1⟩] :=
  ⟨rfl,
   (C9_load_skips_invalid [⟨"sniper", 0, 0, 1⟩] [⟨"tesla", 2, 2, 1⟩]
     ⟨"dragon", 1, 1, 2⟩ rfl).1⟩

/-! ## C10: laser attacks are single-projectile, chain parameters inert -/

/-- C10.  A laser tower's attack emits exactly one projectile, aimed at
the tower's current (single) target, carrying exactly the tower's damage
and never flagged critical; and the chain-lightning parameters
(`chain_targets`, `chain_damage_reduction`) have no effect on the attack
at any value. -/
theorem C10_laser_single_projectile (t : Tower) (critRoll : Bool)
    (h : t.towerType = TowerType.laser) :
    (Tower.attack t critRoll).length = 1 ∧
    (∀ p ∈ Tower.attack t critRoll,
        p.target = t.target ∧ p.damage = t.damage ∧ p.isCritical = false) ∧
    (∀ a b, Tower.attack (setChain t a b) critRoll = Tower.attack t critRoll)
    := by
  have hnr : ¬ (t.towerType = TowerType.rocket ∧ 2 ≤ t.level) := by
    rintro ⟨hr, -⟩
    rw [h] at hr
    cases hr
  refine ⟨?_, ?_, ?_⟩
  · simp [Tower.attack, hnr]
  · intro p hp
    simp only [Tower.attack, if_neg hnr, List.mem_singleton] at hp
    subst hp
    refine ⟨rfl, ?_, ?_⟩ <;>
      simp [Tower.createProjectile, h]
  · intro a b
    rfl

/-- Witness for C10 at a concrete laser tower. -/
theorem C10_witness :
    (mkTower TowerType.laser 0 0).towerType = TowerType.laser ∧
    (Tower.attack (mkTower TowerType.laser 0 0) true).length = 1 :=
  ⟨rfl, (C10_laser_single_projectile (mkTower TowerType.laser 0 0) true rfl).1⟩


/-! ## C7: wave scheduling and clearing -/

theorem scheduleSpawns_length (l : List EnemyType) :
    (scheduleSpawns l).length = l.length := by
  simp [scheduleSpawns]

theorem flattenWave_eq (w : Wave) :
    flattenWave w = w.flatMap (fun kc =>
      match knownTag kc.1 with
      | some tag => List.replicate kc.2 tag
      | none => []) := by
  have key : ∀ (es : Wave) (acc : List EnemyType),
      es.foldl
        (fun acc kc =>
          match knownTag kc.1 with
          | some tag => acc ++ List.replicate kc.2 tag
          | none => acc)
        acc
      = acc ++ es.flatMap (fun kc =>
          match knownTag kc.1 with
          | some tag => List.replicate kc.2 tag
          | none => []) := by
    intro es
    induction es with
    | nil => intro acc; simp
    | cons kc es ih =>
      intro acc
      simp only [List.foldl_cons, List.flatMap_cons, ih]
      cases h : knownTag kc.1 <;> simp [h, List.append_assoc]
  simpa [flattenWave] using key w []

theorem flattenWave_length (w : Wave)
    (hk : ∀ kc ∈ w, (knownTag kc.1).isSome) :
    (flattenWave w).length = sumCounts w := by
  rw [flattenWave_eq]
  induction w with
  | nil => simp [sumCounts]
  | cons kc es ih =>
    have hkc := hk kc (List.mem_cons_self kc es)
    have ih2 := ih (fun kc2 h2 => hk kc2 (List.mem_cons_of_mem kc h2))
    cases h : knownTag kc.1 with
    | none => rw [h] at hkc; cases hkc
    | some tag =>
      rw [List.flatMap_cons, List.length_append, ih2]
      simp [h, sumCounts]

theorem generateWaves_keys_known (d : Difficulty) :
    ∀ w ∈ generateWaves d, ∀ kc ∈ w, (knownTag kc.1).isSome := by
  have hbase : ∀ w ∈ baseWaves, ∀ kc ∈ w, (knownTag kc.1).isSome := by
    with_unfolding_all decide
  cases d with
  | normal => exact hbase
  | easy =>
    intro w hw kc hkc
    simp only [generateWaves, List.mem_map] at hw
    obtain ⟨bw, hbw, rfl⟩ := hw
    simp only [List.mem_map] at hkc
    obtain ⟨kc2, hkc2, rfl⟩ := hkc
    have hfst : (if kc2.1.startsWith "boss" then (kc2.1, kc2.2 - 1)
        else if 0 < kc2.2 then (kc2.1, kc2.2 * 7 / 10) else kc2).1 = kc2.1 := by
      split_ifs <;> rfl
    rw [hfst]
    exact hbase bw hbw kc2 hkc2
  | hard =>
    intro w hw kc hkc
    simp only [generateWaves, List.mem_map] at hw
    obtain ⟨bw, hbw, rfl⟩ := hw
    simp only [List.mem_map] at hkc
    obtain ⟨kc2, hkc2, rfl⟩ := hkc
    have hfst : (if 0 < kc2.2 then (kc2.1, kc2.2 * 2) else kc2).1 = kc2.1 := by
      split_ifs <;> rfl
    rw [hfst]
    exact hbase bw hbw kc2 hkc2

theorem waveLogic_deactivates_only_cleared (dt : ℚ)
    (shuffle : List EnemyType → List EnemyType) (s : GState)
    (ha : s.waveActive = true)
    (hc : (waveLogic dt shuffle s).1.waveActive = false) :
    (waveLogic dt shuffle s).1.enemies = [] ∧
    s.totalEnemies ≤ s.enemiesSpawned := by
  have h1 : ¬ (s.waveActive = false ∧ s.totalEnemies ≤ s.enemiesSpawned ∧
      s.enemies.length = 0 ∧ s.wave < s.waves.length) := by
    simp [ha]
  simp only [waveLogic, if_neg h1] at hc ⊢
  split_ifs at hc ⊢ with h2 h3 <;> simp_all

/-- C7.  Starting wave K (any difficulty's wave table, any in-table index)
marks the wave active, sets `total_enemies` to the sum of wave K's
per-archetype counts, and schedules exactly that many spawns; and a tick
deactivates an active wave only when, at the end of the tick, no enemy
remains on the field and at least `total_enemies` enemies have been
spawned. -/
theorem C7_wave_schedule_and_clear :
    (∀ (d : Difficulty) (shuffle : List EnemyType → List EnemyType)
        (s : GState),
        s.waves = generateWaves d →
        s.wave < s.waves.length →
        (shuffle (flattenWave (s.waves.getD s.wave []))).Perm
          (flattenWave (s.waves.getD s.wave [])) →
        (startWave shuffle s).1.waveActive = true ∧
        (startWave shuffle s).1.totalEnemies
          = sumCounts (s.waves.getD s.wave []) ∧
        (startWave shuffle s).2.length
          = sumCounts (s.waves.getD s.wave [])) ∧
    (∀ emove pstep hitQ evade crit shuffle dt (s : GState),
        s.waveActive = true →
        (onUpdate emove pstep hitQ evade crit shuffle dt s).1.waveActive
          = false →
        (onUpdate emove pstep hitQ evade crit shuffle dt s).1.enemies = [] ∧
        s.totalEnemies ≤ s.enemiesSpawned) := by
  constructor
  · intro d shuffle s hwaves hlt hperm
    have hknown : ∀ kc ∈ s.waves.getD s.wave [], (knownTag kc.1).isSome := by
      intro kc hkc
      have hmem : s.waves.getD s.wave [] ∈ s.waves := by
        rw [List.getD_eq_getElem s.waves [] hlt]
        exact List.getElem_mem hlt
      exact generateWaves_keys_known d _ (hwaves ▸ hmem) kc hkc
    refine ⟨?_, ?_, ?_⟩
    · simp [startWave, hlt]
    · simp [startWave, hlt]
    · simp only [startWave, if_pos hlt]
      rw [scheduleSpawns_length, hperm.length_eq,
        flattenWave_length _ hknown]
  · intro emove pstep hitQ evade crit shuffle dt s ha hc
    by_cases hg : (s.gameOver || s.victory) = true
    · rw [onUpdate, if_pos hg] at hc
      rw [ha] at hc
      cases hc
    · rw [onUpdate, if_neg hg] at hc ⊢
      exact waveLogic_deactivates_only_cleared dt shuffle _ ha hc

/-- Witness for C7: wave 0 of the NORMAL table schedules its 23 spawns,
and a concrete cleared tick deactivates with all spawns out. -/
theorem C7_witness :
    (startWave (fun l => l) (mkGameView Difficulty.normal)).2.length
      = sumCounts ((mkGameView Difficulty.normal).waves.getD 0 []) ∧
    ({ mkGameView Difficulty.normal with
        waveActive := true, enemiesSpawned := 5, totalEnemies := 5 }
          : GState).totalEnemies ≤
      ({ mkGameView Difficulty.normal with
        waveActive := true, enemiesSpawned := 5, totalEnemies := 5 }
          : GState).enemiesSpawned :=
  ⟨(C7_wave_schedule_and_clear.1 Difficulty.normal (fun l => l)
      (mkGameView Difficulty.normal) rfl (by with_unfolding_all decide)
      (List.Perm.refl _)).2.2,
   (C7_wave_schedule_and_clear.2 (fun e => e) (fun p => p) (fun _ _ => false)
      (fun _ => false) (fun _ => false) (fun l => l) 1
      { mkGameView Difficulty.normal with
        waveActive := true, enemiesSpawned := 5, totalEnemies := 5 }
      rfl (by with_unfolding_all decide)).2⟩


/-! ## C8: three escapes on HARD -/

set_option maxHeartbeats 1000000 in
/-- C8 (amended).  A HARD match starts with 18 lives; each escaped enemy
costs `BASE_DAMAGE = 8` lives.  With three enemies poised to escape, the
first tick removes two of them (the source iterates the live list while
removing, skipping one element) leaving 2 lives, the next tick processes
the third escape leaving −6 ≤ 0 lives and entering game-over, and every
later `on_update` call, for every oracle and time step, returns any
game-over state unchanged and schedules nothing. -/
theorem C8_hard_three_escapes_game_over
    (emove : Enemy → Enemy) (pstep : Projectile → Projectile)
    (hitQ : Projectile → Enemy → Bool) (evade crit : ℕ → Bool)
    (shuffle : List EnemyType → List EnemyType) (dt dt2 : ℚ) :
    (mkGameView Difficulty.hard).lives = 18 ∧
    BASE_DAMAGE = 8 ∧
    onUpdate emove pstep hitQ evade crit shuffle dt c8start
      = (c8mid dt, []) ∧
    (c8mid dt).lives = 2 ∧
    (c8mid dt).gameOver = false ∧
    (onUpdate emove pstep hitQ evade crit shuffle dt2 (c8mid dt)).1.lives
      = -6 ∧
    (onUpdate emove pstep hitQ evade crit shuffle dt2 (c8mid dt)).1.gameOver
      = true ∧
    (∀ (emove2 : Enemy → Enemy) (pstep2 : Projectile → Projectile)
        (hitQ2 : Projectile → Enemy → Bool) (evade2 crit2 : ℕ → Bool)
        (shuffle2 : List EnemyType → List EnemyType) (dt3 : ℚ)
        (s : GState), s.gameOver = true →
        onUpdate emove2 pstep2 hitQ2 evade2 crit2 shuffle2 dt3 s
          = (s, [])) := by
  refine ⟨rfl, rfl, by with_unfolding_all rfl, rfl, rfl,
    by with_unfolding_all rfl, by with_unfolding_all rfl,
    fun emove2 pstep2 hitQ2 evade2 crit2 shuffle2 dt3 s hgo => ?_⟩
  rw [onUpdate, if_pos (by rw [hgo]; rfl)]

/-- Witness for C8: the tick-freeze clause at a concrete game-over state. -/
theorem C8_witness :
    c8over.gameOver = true ∧
    onUpdate (fun e => e) (fun p => p) (fun _ _ => false) (fun _ => false)
      (fun _ => false) (fun l => l) 1 c8over = (c8over, []) :=
  ⟨rfl,
   (C8_hard_three_escapes_game_over (fun e => e) (fun p => p)
      (fun _ _ => false) (fun _ => false) (fun _ => false) (fun l => l)
      1 1).2.2.2.2.2.2.2 (fun e => e) (fun p => p) (fun _ _ => false)
      (fun _ => false) (fun _ => false) (fun l => l) 1 c8over rfl⟩

/-! ## C1: splash parameters are never applied -/

/-- C1 (code evaluation).  An artillery projectile (splash radius 60,
splash percent 0.5, damage 50) hits its primary target A while enemy B
stands 30 units from the impact point — well inside the splash radius and
far outside sprite overlap.  The hit-resolution block damages exactly the
collided enemies: A's health drops by 50, B is untouched (health stays
100, not the 75 the splash rule would give), and the resolution result is
the same for every value of the projectile's `aoe_radius` — the attribute
is never read. -/
theorem C1_splash_never_applied :
    c1Proj.aoeRadius = 60 ∧
    c1Tower.damage = 50 ∧
    c1Tower.splashDamagePercent = 0.5 ∧
    pdist2 c1Proj c1B ≤ c1Proj.aoeRadius ^ 2 ∧
    (resolveProjectileHit c1Proj [1] (fun _ => false) [c1A, c1B] 0 0).1
      = [{ c1A with health := 50 }, c1B] ∧
    c1B.health = 100 ∧
    c1B.health - c1Tower.damage * c1Tower.splashDamagePercent = 75 ∧
    (100 : ℚ) ≠ 75 ∧
    (∀ radius : ℚ,
        resolveProjectileHit { c1Proj with aoeRadius := radius } [1]
          (fun _ => false) [c1A, c1B] 0 0
        = resolveProjectileHit c1Proj [1] (fun _ => false) [c1A, c1B] 0 0)
    := by
  refine ⟨by with_unfolding_all rfl, by with_unfolding_all rfl,
    by with_unfolding_all rfl, by with_unfolding_all decide,
    by with_unfolding_all rfl, rfl, by with_unfolding_all decide,
    by with_unfolding_all decide, fun radius => rfl⟩


/-! ## C6 helper lemmas -/

theorem takeDamage_fst_id (e : Enemy) (d : ℚ) (c v : Bool) :
    ((e.takeDamage d c v).1).id = e.id := by
  simp only [Enemy.takeDamage]
  split_ifs <;> rfl

theorem takeDamage_health_noevade (e : Enemy) (d : ℚ) (c : Bool) :
    ((e.takeDamage d c false).1).health = e.health - d * (1 - e.armor) := by
  simp only [Enemy.takeDamage, Bool.false_eq_true, if_false]
  split_ifs <;> rfl

theorem filterMap_if_eq_map_filter (t : Tower) (l : List Enemy) :
    l.filterMap
      (fun e => if Tower.dist2 t e ≤ t.range ^ 2
        then some (e, Tower.dist2 t e) else none)
    = (l.filter (fun e => decide (Tower.dist2 t e ≤ t.range ^ 2))).map
        (fun e => (e, Tower.dist2 t e)) := by
  induction l with
  | nil => rfl
  | cons a l ih =>
    by_cases h : Tower.dist2 t a ≤ t.range ^ 2 <;>
      simp [List.filterMap_cons, List.filter_cons, h, ih]

theorem foldl_applyToId_eq_map (dmg : Enemy → ℚ) (evade : ℕ → Bool) :
    ∀ (ts es : List Enemy), (ts.map Enemy.id).Nodup →
      ts.foldl
        (fun es2 tgt => applyToId es2 tgt.id
          (fun e => (e.takeDamage (dmg tgt) false (evade e.id)).1))
        es
      = es.map (fun e =>
          match ts.find? (fun tgt => tgt.id = e.id) with
          | some tgt => (e.takeDamage (dmg tgt) false (evade e.id)).1
          | none => e) := by
  intro ts
  induction ts with
  | nil =>
    intro es _
    simp
  | cons tgt ts ih =>
    intro es hnd
    have hnd2 : (ts.map Enemy.id).Nodup := (List.nodup_cons.mp hnd).2
    have htid : tgt.id ∉ ts.map Enemy.id := (List.nodup_cons.mp hnd).1
    rw [List.foldl_cons]
    show ts.foldl _ (applyToId es tgt.id _) = _
    rw [ih _ hnd2, applyToId, List.map_map]
    refine List.map_congr_left fun e _ => ?_
    simp only [Function.comp_apply]
    by_cases he : e.id = tgt.id
    · have hfind : ts.find?
          (fun tgt2 => tgt2.id =
            ((e.takeDamage (dmg tgt) false (evade e.id)).1).id) = none := by
        simp only [takeDamage_fst_id, he]
        rw [List.find?_eq_none]
        intro tgt2 htgt2
        simp only [decide_eq_true_eq]
        intro hcon
        exact htid (List.mem_map.mpr ⟨tgt2, htgt2, hcon⟩)
      rw [if_pos he, hfind,
        List.find?_cons_of_pos _ (by simp [he])]
    · rw [if_neg he,
        List.find?_cons_of_neg _ (by simp; exact fun h => he h.symm)]


theorem find?_map_of_id (F : Enemy → Enemy) (hF : ∀ e, (F e).id = e.id) :
    ∀ (es : List Enemy) (e0 : Enemy), e0 ∈ es →
      (es.map Enemy.id).Nodup →
      (es.map F).find? (fun e => e.id = e0.id) = some (F e0) := by
  intro es
  induction es with
  | nil =>
    intro e0 h
    cases h
  | cons a es ih =>
    intro e0 hmem hnd
    rcases List.mem_cons.mp hmem with rfl | hmem2
    · rw [List.map_cons, List.find?_cons_of_pos _ (by simp [hF])]
    · have hne : ¬ a.id = e0.id := by
        intro hcon
        exact (List.nodup_cons.mp hnd).1
          (List.mem_map.mpr ⟨e0, hmem2, hcon.symm⟩)
      rw [List.map_cons, List.find?_cons_of_neg _ (by simp [hF, hne]),
        ih e0 hmem2 (List.nodup_cons.mp hnd).2]

theorem find?_self_of_id :
    ∀ (ts : List Enemy) (e0 : Enemy), e0 ∈ ts →
      (ts.map Enemy.id).Nodup →
      ts.find? (fun tgt => tgt.id = e0.id) = some e0 := by
  intro ts
  induction ts with
  | nil =>
    intro e0 h
    cases h
  | cons a ts ih =>
    intro e0 hmem hnd
    rcases List.mem_cons.mp hmem with rfl | hmem2
    · rw [List.find?_cons_of_pos _ (by simp)]
    · have hne : ¬ a.id = e0.id := by
        intro hcon
        exact (List.nodup_cons.mp hnd).1
          (List.mem_map.mpr ⟨e0, hmem2, hcon.symm⟩)
      rw [List.find?_cons_of_neg _ (by simp [hne]),
        ih e0 hmem2 (List.nodup_cons.mp hnd).2]


/-- C6.  For every tesla tower at or above the multi-target level
threshold, one attack selects the alive in-range enemies sorted ascending
by (squared) distance and takes the first `max_targets` of them; the
damage is applied directly to the enemy list with no projectile (the
tesla branch of `Tower.update` leaves the projectile list untouched), and
the k-th selected target (0-indexed, evasion not firing) is hit with raw
damage exactly `damage * damage_reduction ^ k`, reducing its health by
that amount scaled by its armor. -/
theorem C6_tesla_multi_target (t : Tower) (enemies : List Enemy)
    (evade : ℕ → Bool) (hT : t.towerType = TowerType.tesla)
    (_hL : 2 ≤ t.level) (hNd : (enemies.map Enemy.id).Nodup) :
    (Tower.findMultipleTargets t enemies).Pairwise
      (fun a b => Tower.dist2 t a ≤ Tower.dist2 t b) ∧
    (∀ e ∈ Tower.findMultipleTargets t enemies,
        e.alive = true ∧ 0 < e.health ∧ Tower.dist2 t e ≤ t.range ^ 2) ∧
    (Tower.findMultipleTargets t enemies).length
      = min t.maxTargets
          (((enemies.filter (fun e => e.alive && decide (0 < e.health))).filter
            (fun e => decide (Tower.dist2 t e ≤ t.range ^ 2)))).length ∧
    (∀ (k : ℕ) (hk : k < (Tower.findMultipleTargets t enemies).length),
        evade ((Tower.findMultipleTargets t enemies).get ⟨k, hk⟩).id = false →
        (Tower.attackTesla t enemies evade).find?
            (fun e => e.id =
              ((Tower.findMultipleTargets t enemies).get ⟨k, hk⟩).id)
          = some
            (((Tower.findMultipleTargets t enemies).get ⟨k, hk⟩).takeDamage
              (t.damage * t.damageReduction ^ k) false false).1 ∧
        ((((Tower.findMultipleTargets t enemies).get ⟨k, hk⟩).takeDamage
              (t.damage * t.damageReduction ^ k) false false).1).health
          = ((Tower.findMultipleTargets t enemies).get ⟨k, hk⟩).health
            - (t.damage * t.damageReduction ^ k)
              * (1 - ((Tower.findMultipleTargets t enemies).get ⟨k, hk⟩).armor)) ∧
    (∀ (dt : ℚ) (ps : List Projectile) (critRoll : Bool),
        (towerUpdate dt enemies ps critRoll evade t).2.2 = ps) := by
  haveI hTot : IsTotal (Enemy × ℚ) (fun a b => a.2 ≤ b.2) :=
    ⟨fun a b => le_total a.2 b.2⟩
  haveI hTrans : IsTrans (Enemy × ℚ) (fun a b => a.2 ≤ b.2) :=
    ⟨fun a b c hab hbc => le_trans hab hbc⟩
  have hunfold : Tower.findMultipleTargets t enemies
      = ((((((enemies.filter (fun e => e.alive && decide (0 < e.health))).filter
            (fun e => decide (Tower.dist2 t e ≤ t.range ^ 2))).map
          (fun e => (e, Tower.dist2 t e))).insertionSort
            (fun a b => a.2 ≤ b.2)).take t.maxTargets)).map Prod.fst := by
    unfold Tower.findMultipleTargets
    rw [filterMap_if_eq_map_filter]
  set ts := Tower.findMultipleTargets t enemies with hts
  set flt := (enemies.filter (fun e => e.alive && decide (0 < e.health))).filter
    (fun e => decide (Tower.dist2 t e ≤ t.range ^ 2)) with hflt
  set sorted := ((flt.map (fun e => (e, Tower.dist2 t e))).insertionSort
    (fun a b => a.2 ≤ b.2)) with hsorted
  have hperm : sorted.Perm (flt.map (fun e => (e, Tower.dist2 t e))) :=
    List.perm_insertionSort _ _
  have hsnd : ∀ x ∈ sorted, x.2 = Tower.dist2 t x.1 := by
    intro x hx
    obtain ⟨e, -, rfl⟩ := List.mem_map.mp (hperm.mem_iff.mp hx)
    rfl
  have hsortedS : sorted.Sorted (fun a b => a.2 ≤ b.2) :=
    List.sorted_insertionSort _ _
  have hfltsub : flt.Sublist enemies :=
    (List.filter_sublist _).trans (List.filter_sublist _)
  have hfltNd : (flt.map Enemy.id).Nodup := hNd.sublist (hfltsub.map _)
  have hmapids : (flt.map (fun e => (e, Tower.dist2 t e))).map
      (fun x => x.1.id) = flt.map Enemy.id := by
    rw [List.map_map]
    rfl
  have hsortedNd : (sorted.map (fun x => x.1.id)).Nodup := by
    rw [(hperm.map (fun x => x.1.id)).nodup_iff, hmapids]
    exact hfltNd
  have htsNd : (ts.map Enemy.id).Nodup := by
    rw [hunfold, List.map_map]
    exact hsortedNd.sublist ((List.take_sublist _ _).map _)
  have htsmem : ∀ e ∈ ts, e ∈ flt := by
    intro e he
    rw [hunfold] at he
    obtain ⟨x, hx, rfl⟩ := List.mem_map.mp he
    have hxs : x ∈ sorted := List.mem_of_mem_take hx
    obtain ⟨e2, he2, rfl⟩ := List.mem_map.mp (hperm.mem_iff.mp hxs)
    exact he2
  refine ⟨?_, ?_, ?_, ?_, ?_⟩
  · rw [hunfold, List.pairwise_map]
    have h1 : (sorted.take t.maxTargets).Pairwise
        (fun a b => a.2 ≤ b.2) :=
      hsortedS.sublist (List.take_sublist _ _)
    refine h1.imp_of_mem ?_
    intro a b ha hb hab
    rw [← hsnd a (List.mem_of_mem_take ha), ← hsnd b (List.mem_of_mem_take hb)]
    exact hab
  · intro e he
    have hef : e ∈ flt := htsmem e he
    rw [hflt] at hef
    simp only [List.mem_filter, Bool.and_eq_true, decide_eq_true_eq] at hef
    exact ⟨hef.1.2.1, hef.1.2.2, hef.2⟩
  · rw [hunfold, List.length_map, List.length_take, hperm.length_eq,
      List.length_map]
  · intro k hk hev
    have he0mem : ts.get ⟨k, hk⟩ ∈ ts := List.get_mem ts k hk
    have he0enemies : ts.get ⟨k, hk⟩ ∈ enemies :=
      hfltsub.subset (htsmem _ he0mem)
    have htsNodup : ts.Nodup := htsNd.of_map
    have hidx : ts.indexOf (ts.get ⟨k, hk⟩) = k := by
      rw [List.get_eq_getElem]
      exact List.indexOf_getElem htsNodup k hk
    have hAT : Tower.attackTesla t enemies evade
        = enemies.map (fun e =>
            match ts.find? (fun tgt => tgt.id = e.id) with
            | some tgt =>
              (e.takeDamage (t.damage * t.damageReduction ^ (ts.indexOf tgt))
                false (evade e.id)).1
            | none => e) := by
      show ts.foldl _ enemies = _
      exact foldl_applyToId_eq_map
        (fun tgt => t.damage * t.damageReduction ^ (ts.indexOf tgt))
        evade ts enemies htsNd
    have hFFid : ∀ e : Enemy,
        ((fun e : Enemy =>
            match ts.find? (fun tgt : Enemy => tgt.id = e.id) with
            | some tgt =>
              (e.takeDamage (t.damage * t.damageReduction ^ (ts.indexOf tgt))
                false (evade e.id)).1
            | none => e) e).id = e.id := by
      intro e
      cases h : ts.find? (fun tgt : Enemy => tgt.id = e.id) <;>
        simp [h, takeDamage_fst_id]
    have hself : ts.find?
        (fun tgt => tgt.id = (ts.get ⟨k, hk⟩).id) = some (ts.get ⟨k, hk⟩) :=
      find?_self_of_id ts _ he0mem htsNd
    constructor
    · rw [hAT]
      rw [find?_map_of_id _ hFFid enemies _ he0enemies hNd]
      rw [hself]
      dsimp only
      rw [hidx, hev]
    · exact takeDamage_health_noevade _ _ _
  · intro dt ps critRoll
    simp only [towerUpdate]
    have : ({ t with fireTimer := t.fireTimer + dt } : Tower).towerType
        = TowerType.tesla := hT
    rw [if_pos this]
    split_ifs <;> rfl


/-- Witness for C6: the level-2 tesla tower and three concrete enemies
(two in range), selecting min(6, 2) = 2 targets. -/
theorem C6_witness :
    c6t.towerType = TowerType.tesla ∧ 2 ≤ c6t.level ∧
    (c6es.map Enemy.id).Nodup ∧
    (Tower.findMultipleTargets c6t c6es).length
      = min c6t.maxTargets
          (((c6es.filter (fun e => e.alive && decide (0 < e.health))).filter
            (fun e => decide (Tower.dist2 c6t e ≤ c6t.range ^ 2)))).length :=
  ⟨by with_unfolding_all rfl, by with_unfolding_all decide,
   by with_unfolding_all decide,
   (C6_tesla_multi_target c6t c6es (fun _ => false)
     (by with_unfolding_all rfl) (by with_unfolding_all decide)
     (by with_unfolding_all decide)).2.2.1⟩


/-! ## C5 helper lemmas: BFS soundness and the corridor run -/

theorem mem_of_getLast?_eq {l : List Cell} {a : Cell}
    (h : l.getLast? = some a) : a ∈ l := by
  obtain ⟨hne, rfl⟩ := List.mem_getLast?_eq_getLast h
  exact List.getLast_mem hne

theorem mem_of_head?_eq {l : List Cell} {a : Cell}
    (h : l.head? = some a) : a ∈ l := by
  rw [List.eq_cons_of_mem_head? h]
  exact List.mem_cons_self _ _

/-- A queued (reversed) path: nonempty, rooted at the start cell, all
cells walkable, every step from the previous cell to a 4-neighbour. -/
def RevPathOK (pts : List Cell) (s : Cell) (p : List Cell) : Prop :=
  p ≠ [] ∧ p.getLast? = some s ∧ (∀ c ∈ p, c ∈ pts) ∧
    p.Chain' (fun a b => Adj b a)

theorem bfsExpand_mem (pts : List Cell) (path : List Cell) :
    ∀ (L : List Cell) (queue : List (List Cell)) (visited : List Cell)
      (q : List Cell),
      q ∈ (L.foldl
        (fun (acc : List (List Cell) × List Cell) n =>
          if n ∈ pts ∧ n ∉ acc.2 then (acc.1 ++ [n :: path], n :: acc.2)
          else acc)
        (queue, visited)).1 →
      q ∈ queue ∨ ∃ n ∈ L, n ∈ pts ∧ q = n :: path := by
  intro L
  induction L with
  | nil =>
    intro queue visited q hq
    exact Or.inl hq
  | cons a L ih =>
    intro queue visited q hq
    rw [List.foldl_cons] at hq
    by_cases h : a ∈ pts ∧ a ∉ visited
    · rw [if_pos h] at hq
      rcases ih _ _ _ hq with hq2 | ⟨n, hn, hnp, rfl⟩
      · rcases List.mem_append.mp hq2 with hq3 | hq3
        · exact Or.inl hq3
        · exact Or.inr ⟨a, List.mem_cons_self _ _, h.1,
            (List.mem_singleton.mp hq3)⟩
      · exact Or.inr ⟨n, List.mem_cons_of_mem _ hn, hnp, rfl⟩
    · rw [if_neg h] at hq
      rcases ih _ _ _ hq with hq2 | ⟨n, hn, hnp, rfl⟩
      · exact Or.inl hq2
      · exact Or.inr ⟨n, List.mem_cons_of_mem _ hn, hnp, rfl⟩

theorem bfsAux_sound (pts : List Cell) (s e : Cell) :
    ∀ (fuel : ℕ) (queue : List (List Cell)) (visited : List Cell)
      (r : List Cell),
      (∀ p ∈ queue, RevPathOK pts s p) →
      bfsAux pts e fuel queue visited = some r →
      ∃ p, RevPathOK pts s p ∧ p.head? = some e ∧ r = p.reverse := by
  intro fuel
  induction fuel with
  | zero =>
    intro queue visited r _ heq
    cases heq
  | succ fuel ih =>
    intro queue visited r hinv heq
    match queue with
    | [] => cases heq
    | path :: rest =>
      match hpath : path with
      | [] =>
        rw [bfsAux] at heq
        cases heq
      | c :: p2 =>
        rw [bfsAux] at heq
        by_cases hc : c = e
        · rw [if_pos hc] at heq
          refine ⟨c :: p2, hinv _ (List.mem_cons_self _ _), ?_, ?_⟩
          · rw [hc]
            rfl
          · exact (Option.some.inj heq).symm
        · rw [if_neg hc] at heq
          refine ih _ _ r ?_ heq
          intro q hq
          rcases bfsExpand_mem pts (c :: p2) (nbrs c) rest visited q hq with
            hq2 | ⟨n, hn, hnp, rfl⟩
          · exact hinv _ (List.mem_cons_of_mem _ hq2)
          · have hold := hinv _ (List.mem_cons_self _ _)
            refine ⟨List.cons_ne_nil _ _, ?_, ?_, ?_⟩
            · rw [List.getLast?_cons_cons]
              exact hold.2.1
            · intro c2 hc2
              rcases List.mem_cons.mp hc2 with rfl | hc3
              · exact hnp
              · exact hold.2.2.1 c2 hc3
            · rw [List.chain'_cons]
              exact ⟨hn, hold.2.2.2⟩

/-- If the BFS returns a path, it is a valid walk from `start` to `endC`
through the walkable cells. -/
theorem findPathBFS_sound (s e : Cell) (pts : List Cell) (r : List Cell)
    (h : findPathBFS s e pts = some r) : ValidWalk s e pts r := by
  rw [findPathBFS] at h
  by_cases hg : s ∈ pts ∧ e ∈ pts
  · rw [if_pos hg] at h
    have hinv0 : ∀ p ∈ [[s]], RevPathOK pts s p := by
      intro p hp
      rw [List.mem_singleton.mp hp]
      exact ⟨List.cons_ne_nil _ _, rfl, fun c hc => by
        rw [List.mem_singleton.mp hc]; exact hg.1, List.chain'_singleton _⟩
    obtain ⟨p, hok, hhead, rfl⟩ := bfsAux_sound pts s e (pts.length + 1)
      [[s]] [s] r hinv0 h
    refine ⟨?_, ?_, ?_, ?_, ?_⟩
    · simp [List.reverse_eq_nil_iff, hok.1]
    · rw [List.head?_reverse]
      exact hok.2.1
    · rw [List.getLast?_reverse]
      exact hhead
    · intro c hc
      exact hok.2.2.1 c (List.mem_reverse.mp hc)
    · rw [List.chain'_reverse]
      exact hok.2.2.2
  · rw [if_neg hg] at h
    cases h

/-- If no walk exists, the BFS reports failure. -/
theorem findPathBFS_none (s e : Cell) (pts : List Cell)
    (h : ¬ ∃ p, ValidWalk s e pts p) : findPathBFS s e pts = none := by
  cases heq : findPathBFS s e pts with
  | none => rfl
  | some r => exact absurd ⟨r, findPathBFS_sound s e pts r heq⟩ h


theorem nbrs_nodup (c : Cell) : (nbrs c).Nodup := by
  simp [nbrs, Prod.ext_iff]
  omega

theorem bfsExpand_none (pts : List Cell) (path : List Cell) :
    ∀ (L : List Cell) (queue : List (List Cell)) (visited : List Cell),
      (∀ n ∈ L, ¬ (n ∈ pts ∧ n ∉ visited)) →
      L.foldl
        (fun (acc : List (List Cell) × List Cell) n =>
          if n ∈ pts ∧ n ∉ acc.2 then (acc.1 ++ [n :: path], n :: acc.2)
          else acc)
        (queue, visited) = (queue, visited) := by
  intro L
  induction L with
  | nil =>
    intro queue visited _
    rfl
  | cons a L ih =>
    intro queue visited hfail
    rw [List.foldl_cons, if_neg (hfail a (List.mem_cons_self a L))]
    exact ih queue visited fun n hn => hfail n (List.mem_cons_of_mem a hn)

theorem bfsExpand_unique (pts : List Cell) (path : List Cell) :
    ∀ (L : List Cell) (queue : List (List Cell)) (visited : List Cell)
      (n0 : Cell),
      L.Nodup → n0 ∈ L → n0 ∈ pts → n0 ∉ visited →
      (∀ n ∈ L, n ≠ n0 → ¬ (n ∈ pts ∧ n ∉ visited)) →
      L.foldl
        (fun (acc : List (List Cell) × List Cell) n =>
          if n ∈ pts ∧ n ∉ acc.2 then (acc.1 ++ [n :: path], n :: acc.2)
          else acc)
        (queue, visited) = (queue ++ [n0 :: path], n0 :: visited) := by
  intro L
  induction L with
  | nil =>
    intro queue visited n0 _ h0
    cases h0
  | cons a L ih =>
    intro queue visited n0 hnd h0 hpts hvis hfail
    rcases List.mem_cons.mp h0 with rfl | h0L
    · rw [List.foldl_cons, if_pos ⟨hpts, hvis⟩]
      refine bfsExpand_none pts path L _ _ ?_
      intro n hn
      rintro ⟨hn2, hn3⟩
      have hne : n ≠ n0 := by
        intro h
        rw [h] at hn
        exact (List.nodup_cons.mp hnd).1 hn
      have hn4 : n ∉ visited := fun h =>
        hn3 (List.mem_cons_of_mem _ h)
      exact hfail n (List.mem_cons_of_mem _ hn) hne ⟨hn2, hn4⟩
    · have hane : a ≠ n0 := by
        rintro rfl
        exact (List.nodup_cons.mp hnd).1 h0L
      rw [List.foldl_cons, if_neg (hfail a (List.mem_cons_self _ _) hane)]
      exact ih queue visited n0 (List.nodup_cons.mp hnd).2 h0L hpts hvis
        fun n hn => hfail n (List.mem_cons_of_mem a hn)

theorem bfs_corridor_run (s e : Cell) (pts : List Cell) (cs : List Cell)
    (hC : IsCorridor s e pts cs) :
    ∀ (k i : ℕ), i + k + 1 = cs.length →
      ∀ fuel, k + 1 ≤ fuel →
      bfsAux pts e fuel [(cs.take (i + 1)).reverse]
        ((cs.take (i + 1)).reverse) = some cs := by
  intro k
  induction k with
  | zero =>
    intro i hlen fuel hfuel
    obtain ⟨f, rfl⟩ : ∃ f, fuel = f + 1 := by
      cases fuel with
      | zero => omega
      | succ f => exact ⟨f, rfl⟩
    have htake : cs.take (i + 1) = cs := by
      rw [show i + 1 = cs.length by omega, List.take_length]
    have hne : cs ≠ [] := by
      intro h
      rw [h] at hlen
      simp at hlen
    obtain ⟨c, p2, hrev⟩ : ∃ c p2, cs.reverse = c :: p2 := by
      cases hcs : cs.reverse with
      | nil => exact absurd (List.reverse_eq_nil_iff.mp hcs) hne
      | cons c p2 => exact ⟨c, p2, rfl⟩
    have hce : c = e := by
      have h1 : cs.reverse.head? = some e := by
        rw [List.head?_reverse]
        exact hC.last
      rw [hrev] at h1
      exact Option.some.inj h1
    rw [htake, hrev]
    simp only [bfsAux]
    rw [if_pos hce, show (c :: p2).reverse = cs from by
      rw [← hrev, List.reverse_reverse]]
  | succ k ih =>
    intro i hlen fuel hfuel
    obtain ⟨f, rfl⟩ : ∃ f, fuel = f + 1 := by
      cases fuel with
      | zero => omega
      | succ f => exact ⟨f, rfl⟩
    have hi : i < cs.length := by omega
    have hi1 : i + 1 < cs.length := by omega
    have htake1 : cs.take (i + 1) = cs.take i ++ [cs[i]] := by
      rw [List.take_succ, List.getElem?_eq_getElem hi]
      rfl
    have htake2 : cs.take (i + 2) = cs.take (i + 1) ++ [cs[i + 1]] := by
      rw [List.take_succ, List.getElem?_eq_getElem hi1]
      rfl
    have hrev1 : (cs.take (i + 1)).reverse = cs[i] :: (cs.take i).reverse := by
      rw [htake1, List.reverse_append]
      rfl
    have hrev2 : (cs.take (i + 2)).reverse
        = cs[i + 1] :: (cs.take (i + 1)).reverse := by
      rw [htake2, List.reverse_append]
      rfl
    have hlast : e = cs[cs.length - 1] := by
      have h1 := hC.last
      rw [List.getLast?_eq_getElem?,
        List.getElem?_eq_getElem (by omega : cs.length - 1 < cs.length)] at h1
      exact (Option.some.inj h1).symm
    have hce : ¬ cs[i] = e := by
      intro h
      rw [hlast] at h
      have := (List.Nodup.getElem_inj_iff hC.nodup).mp h
      omega
    have hadj : Adj cs[i] cs[i + 1] := by
      have := List.chain'_iff_get.mp hC.chain i (by omega)
      simpa [List.get_eq_getElem] using this
    have hn0pts : cs[i + 1] ∈ pts :=
      (hC.mem _).mpr (List.getElem_mem hi1)
    have hn0vis : cs[i + 1] ∉ (cs.take (i + 1)).reverse := by
      rw [List.mem_reverse]
      intro h
      obtain ⟨j, hj1, hj2⟩ := List.mem_take_iff_getElem.mp h
      have := (List.Nodup.getElem_inj_iff hC.nodup).mp hj2
      omega
    have hfail : ∀ n ∈ nbrs cs[i], n ≠ cs[i + 1] →
        ¬ (n ∈ pts ∧ n ∉ (cs.take (i + 1)).reverse) := by
      intro n hn hne
      rintro ⟨hnpts, hnvis⟩
      obtain ⟨j, hj, rfl⟩ := List.mem_iff_getElem.mp ((hC.mem n).mp hnpts)
      rcases Nat.lt_or_ge j (i + 1) with hj2 | hj2
      · exact hnvis (List.mem_reverse.mpr
          (List.mem_take_iff_getElem.mpr ⟨j, by omega, rfl⟩))
      · rcases Nat.eq_or_lt_of_le hj2 with hj3 | hj3
        · exact hne (by
            congr 1
            omega)
        · refine hC.noChord i j hi hj (by omega) ?_
          simpa [List.get_eq_getElem] using hn
    have hn0vis2 : cs[i + 1] ∉ cs[i] :: (cs.take i).reverse := by
      rw [← hrev1]
      exact hn0vis
    have hfail2 : ∀ n ∈ nbrs cs[i], n ≠ cs[i + 1] →
        ¬ (n ∈ pts ∧ n ∉ cs[i] :: (cs.take i).reverse) := by
      rw [← hrev1]
      exact hfail
    rw [hrev1]
    simp only [bfsAux]
    rw [if_neg hce]
    simp only [bfsExpand]
    rw [bfsExpand_unique pts (cs[i] :: (cs.take i).reverse)
      (nbrs cs[i]) [] (cs[i] :: (cs.take i).reverse) cs[i + 1]
      (nbrs_nodup _) hadj hn0pts hn0vis2 hfail2]
    have h1 : cs[i + 1] :: (cs[i] :: (cs.take i).reverse)
        = (cs.take (i + 2)).reverse := by
      rw [hrev2, hrev1]
    rw [List.nil_append, h1]
    exact ih (i + 1) (by omega) f (by omega)


/-- On a single unobstructed corridor the BFS returns exactly the
corridor. -/
theorem findPathBFS_corridor (s e : Cell) (pts : List Cell)
    (cs : List Cell) (hC : IsCorridor s e pts cs) :
    findPathBFS s e pts = some cs := by
  have hs : s ∈ pts := (hC.mem s).mpr (mem_of_head?_eq hC.head)
  have he : e ∈ pts := (hC.mem e).mpr (mem_of_getLast?_eq hC.last)
  have hlen : pts.length = cs.length :=
    ((List.perm_ext_iff_of_nodup hC.ptsNodup hC.nodup).mpr hC.mem).length_eq
  have hne : cs ≠ [] := by
    intro h
    rw [h] at hC
    cases hC.head
  have hlen1 : 1 ≤ cs.length := List.length_pos.mpr hne
  have hcs0 : cs = s :: cs.tail := by
    have : s ∈ cs.head? := by
      rw [hC.head]
      rfl
    simpa using List.eq_cons_of_mem_head? this
  have htake : (cs.take 1).reverse = [s] := by
    conv_lhs => rw [hcs0]
    rfl
  rw [findPathBFS, if_pos ⟨hs, he⟩]
  have := bfs_corridor_run s e pts cs hC (cs.length - 1) 0 (by omega)
    (pts.length + 1) (by omega)
  rw [htake] at this
  exact this

/-- C5.  (i) On a grid whose walkable cells form a single unobstructed
corridor from S to E, `find_path_bfs` returns exactly the corridor and the
produced `path_points` polyline has Manhattan-distance + 1 points.
(ii) When S and E are disconnected, the produced polyline is the
documented two-point fallback segment from S's to E's world position.
(iii) When the start or end cell is absent, the polyline is the two-point
default segment.  All functions are total: no exception is modelled or
possible. -/
theorem C5_pathfinding :
    (∀ (dict : List (Cell × (ℤ × ℤ))) (s e : Cell) (ew : ℤ × ℤ)
        (ss : List Cell) (offx offy : ℤ) (cs : List Cell),
        IsCorridor s e (dict.map Prod.fst) cs →
        findPathBFS s e (dict.map Prod.fst) = some cs ∧
        createSinglePath (s :: ss) (some (e, ew)) dict
          = some (cs.map (worldOf dict)) ∧
        (loadMapPath offx offy (s :: ss) (some (e, ew)) dict).length
          = manhattan s e + 1) ∧
    (∀ (dict : List (Cell × (ℤ × ℤ))) (s e : Cell) (ew : ℤ × ℤ)
        (ss : List Cell) (offx offy : ℤ),
        (¬ ∃ p, ValidWalk s e (dict.map Prod.fst) p) →
        loadMapPath offx offy (s :: ss) (some (e, ew)) dict
          = [worldOf dict s, ew]) ∧
    (∀ (offx offy : ℤ) (starts : List Cell)
        (endPos : Option (Cell × (ℤ × ℤ))) (dict : List (Cell × (ℤ × ℤ))),
        starts = [] ∨ endPos = none →
        (loadMapPath offx offy starts endPos dict).length = 2) := by
  refine ⟨?_, ?_, ?_⟩
  · intro dict s e ew ss offx offy cs hC
    have hbfs := findPathBFS_corridor s e (dict.map Prod.fst) cs hC
    have hcsp : createSinglePath (s :: ss) (some (e, ew)) dict
        = some (cs.map (worldOf dict)) := by
      rw [createSinglePath, hbfs]
    refine ⟨hbfs, hcsp, ?_⟩
    have hne : cs ≠ [] := by
      intro h
      rw [h] at hC
      cases hC.head
    have hmapne : (cs.map (worldOf dict)).isEmpty = false := by
      rw [List.isEmpty_eq_false_iff_exists_mem]
      obtain ⟨c, hc⟩ := List.exists_mem_of_ne_nil cs hne
      exact ⟨worldOf dict c, List.mem_map_of_mem _ hc⟩
    rw [loadMapPath, hcsp]
    dsimp only
    rw [hmapne]
    simp only [Bool.false_eq_true, if_false, List.length_map]
    exact hC.unobstructed
  · intro dict s e ew ss offx offy hno
    have hbfs := findPathBFS_none s e (dict.map Prod.fst) hno
    have hcsp : createSinglePath (s :: ss) (some (e, ew)) dict
        = some [worldOf dict s, ew] := by
      rw [createSinglePath, hbfs]
    rw [loadMapPath, hcsp]
    rfl
  · intro offx offy starts endPos dict h
    rcases h with rfl | rfl
    · cases endPos with
      | none => rfl
      | some p2 =>
        cases p2 with
        | mk ec ew => rfl
    · cases starts with
      | nil => rfl
      | cons s2 ss2 => rfl


/-- Witness for C5: a two-cell corridor, a disconnected goal, and an
absent start/end. -/
theorem C5_witness :
    (findPathBFS (0, 0) (1, 0)
        ([((0, 0), (32, 32)), ((1, 0), (96, 32))].map Prod.fst)
      = some [(0, 0), (1, 0)] ∧
     (loadMapPath 0 0 [(0, 0)] (some ((1, 0), (96, 32)))
        [((0, 0), (32, 32)), ((1, 0), (96, 32))]).length
      = manhattan (0, 0) (1, 0) + 1) ∧
    loadMapPath 0 0 [(0, 0)] (some ((3, 3), (7, 7))) [((0, 0), (5, 5))]
      = [worldOf [((0, 0), (5, 5))] (0, 0), (7, 7)] ∧
    (loadMapPath 0 0 [] none []).length = 2 := by
  have hC : IsCorridor (0, 0) (1, 0)
      ([((0, 0), (32, 32)), ((1, 0), (96, 32))].map Prod.fst)
      [(0, 0), (1, 0)] := by
    refine ⟨rfl, rfl, by decide,
      by
        rw [List.chain'_cons]
        exact ⟨by decide, List.chain'_singleton _⟩,
      fun c => Iff.rfl, by decide, ?_, by decide⟩
    intro i j hi hj hij
    exfalso
    simp only [List.length_cons, List.length_nil] at hj
    omega
  have hno : ¬ ∃ p, ValidWalk (0, 0) (3, 3)
      ([((0, 0), (5, 5))].map Prod.fst) p := by
    rintro ⟨p, hp⟩
    have he : ((3, 3) : Cell) ∈ [((0, 0), (5, 5))].map Prod.fst :=
      hp.2.2.2.1 _ (mem_of_getLast?_eq hp.2.2.1)
    simp at he
  refine ⟨?_, ?_, ?_⟩
  · have h := C5_pathfinding.1 [((0, 0), (32, 32)), ((1, 0), (96, 32))]
      (0, 0) (1, 0) (96, 32) [] 0 0 [(0, 0), (1, 0)] hC
    exact ⟨h.1, h.2.2⟩
  · exact C5_pathfinding.2.1 [((0, 0), (5, 5))] (0, 0) (3, 3) (7, 7) [] 0 0
      hno
  · exact C5_pathfinding.2.2 0 0 [] none [] (Or.inl rfl)

end TDS
